import Mathlib

/-!
Verification development for the `add-gl-quotes-to-tsv-files` CLI
(incremental cache / partial-regeneration engine for TSV files).

The JavaScript source is shallowly embedded: rows are `List String`
(a TSV line split on tabs), row sets are `List (List String)` (the file
split on newlines), JS array reads `row[i]` become `Option String`
(`none` models `undefined`), and the JS truthiness/equality idioms used
by the source are modelled by small helper functions.  Asynchronous
transport calls (artifact listing, download, zip decoding) are modelled
by explicit outcome data types, and the process-lifetime cache of the
previous-result resolver is threaded as explicit state.
-/

/-- The not-found sentinel appearing in quote / GLQuote fields. -/
def QNF : String := "QUOTE_NOT_FOUND"

/-- Key separator used by `makeRowKey` (U+241F, "unit separator-like char"). -/
def keySep : String := "␟"

/-- Does `s` start with `pat`?  (List-of-chars level.) -/
def startsList : List Char → List Char → Bool
  | _, [] => true
  | [], _ :: _ => false
  | a :: as, b :: bs => a == b && startsList as bs

/-- Drop leading whitespace (list-of-chars level). -/
def dropWS : List Char → List Char
  | [] => []
  | c :: rest => if c.isWhitespace then dropWS rest else c :: rest

/-- JS `s.trim()`: strip whitespace from both ends. -/
def jsTrim (s : String) : String :=
  String.mk ((dropWS (dropWS s.data).reverse).reverse)

/-- JS `s.endsWith(sfx)`. -/
def jsEndsWith (s sfx : String) : Bool :=
  startsList s.data.reverse sfx.data.reverse

/-- Split a character list on a separator character (JS `split` with a
one-character separator, which is the only form the source uses). -/
def splitOnChar (c : Char) : List Char → List (List Char)
  | [] => [[]]
  | a :: rest =>
    let r := splitOnChar c rest
    if a == c then [] :: r
    else
      match r with
      | [] => [[a]]
      | h :: t => (a :: h) :: t

/-- Substring occurrence test at the list-of-chars level. -/
def hasSubList (sub : List Char) : List Char → Bool
  | [] => sub.isEmpty
  | c :: rest => startsList (c :: rest) sub || hasSubList sub rest

/-- JS `s.includes(sub)`: substring containment. -/
def jsIncludes (s sub : String) : Bool := hasSubList sub.data s.data

/-- JS `x?.includes(sub)` on a possibly-undefined string. -/
def optIncludes (o : Option String) (sub : String) : Bool :=
  match o with
  | none => false
  | some s => jsIncludes s sub

/-- JS truthiness of `x?.trim()`: defined and non-blank after trimming. -/
def truthyTrim (o : Option String) : Bool :=
  match o with
  | none => false
  | some s => !(jsTrim s == "")

/-- JS array read `row[i]` with a (possibly -1) index: `none` is `undefined`. -/
def jsAt (r : List String) (i : Int) : Option String :=
  if 0 ≤ i then r[i.toNat]? else none

/-- Position of the first element equal to `a` (core of JS `indexOf`). -/
def idxOf? (a : String) : List String → Option Nat
  | [] => none
  | h :: t => if h == a then some 0 else (idxOf? a t).map (· + 1)

/-- JS `Array.prototype.indexOf` (and `findIndex` with an equality test): -1 when absent. -/
def jsIndexOf (l : List String) (a : String) : Int :=
  match idxOf? a l with
  | none => -1
  | some n => n

/-- JS `arr.splice(k, 0, ...xs)`: insert `xs` at position `k` (appends when `k > length`). -/
def spliceIns (l : List α) (k : Nat) (xs : List α) : List α :=
  l.take k ++ xs ++ l.drop k

/-- JS `while (row.length < n) row.push('')`. -/
def padTo (l : List String) (n : Nat) : List String :=
  l ++ List.replicate (n - l.length) ""

/-- JS element assignment `r[i] = v`: in-bounds update, or extension with
holes that render as `""` on `join`. -/
def jsSet (r : List String) (i : Nat) (v : String) : List String :=
  if i < r.length then r.set i v else r ++ List.replicate (i - r.length) "" ++ [v]

/-- JS `Array.prototype.join(sep)`. -/
def jsJoin (sep : String) : List String → String
  | [] => ""
  | [x] => x
  | x :: y :: rest => x ++ sep ++ jsJoin sep (y :: rest)

/-- `content.split('\n').map(line => line.split('\t'))`. -/
def parseTSV (s : String) : List (List String) :=
  (splitOnChar '\n' s.data).map (fun line => (splitOnChar '\t' line).map String.mk)

/-- `rows.map(r => r.join('\t')).join('\n')`. -/
def unparseTSV (rows : List (List String)) : String :=
  jsJoin "\n" (rows.map (fun r => jsJoin "\t" r))

/-- The six semantic column indices resolved by header-name lookup. -/
structure IdxBundle where
  ref : Int
  id : Int
  quote : Int
  occ : Int
  glq : Int
  glo : Int
deriving Repr, DecidableEq

/-- The `Quote` → `OrigQuote` → `OrigWords` fallback chain of the source. -/
def quoteChainIdx (headers : List String) : Int :=
  let q := jsIndexOf headers "Quote"
  if q == -1 then
    let q2 := jsIndexOf headers "OrigQuote"
    if q2 == -1 then jsIndexOf headers "OrigWords" else q2
  else q

/-- `getIndexBundle(headers)` from the source. -/
def getIndexBundle (headers : List String) : IdxBundle :=
  { ref := jsIndexOf headers "Reference"
    id := jsIndexOf headers "ID"
    quote := quoteChainIdx headers
    occ := jsIndexOf headers "Occurrence"
    glq := jsIndexOf headers "GLQuote"
    glo := jsIndexOf headers "GLOccurrence" }

/-- `makeRowKey(row, idx)`: guarded pushes of the four key fields, joined with `keySep`. -/
def makeRowKey (row : List String) (idx : IdxBundle) : String :=
  let parts :=
    (if 0 ≤ idx.ref then [(jsAt row idx.ref).getD ""] else []) ++
    (if 0 ≤ idx.id then [(jsAt row idx.id).getD ""] else []) ++
    (if 0 ≤ idx.quote then [(jsAt row idx.quote).getD ""] else []) ++
    (if 0 ≤ idx.occ then [(jsAt row idx.occ).getD ""] else [])
  jsJoin keySep parts

/-- The four field-wise identity comparisons of `mergePreviousGLQuotes`
(each conjunct also requires both indices to be resolved). -/
def rowMatches (cur prev : List String) (cIdx pIdx : IdxBundle) : Bool :=
  (decide (0 ≤ cIdx.ref) && decide (0 ≤ pIdx.ref) &&
    (jsAt cur cIdx.ref == jsAt prev pIdx.ref)) &&
  (decide (0 ≤ cIdx.id) && decide (0 ≤ pIdx.id) &&
    (jsAt cur cIdx.id == jsAt prev pIdx.id)) &&
  (decide (0 ≤ cIdx.quote) && decide (0 ≤ pIdx.quote) &&
    (jsAt cur cIdx.quote == jsAt prev pIdx.quote)) &&
  (decide (0 ≤ cIdx.occ) && decide (0 ≤ pIdx.occ) &&
    (jsAt cur cIdx.occ == jsAt prev pIdx.occ))

/-- Selection predicate as written in the missing-row counts of
`mergePreviousGLQuotes` (the sentinel-in-quote disjunct sits inside the
occurrence guard). -/
def siteANeeds (r : List String) (quoteI occI glqI : Int) : Bool :=
  truthyTrim (jsAt r quoteI) && truthyTrim (jsAt r occI) &&
  !(jsAt r occI == some "0") &&
  ((!truthyTrim (jsAt r glqI) || optIncludes (jsAt r glqI) QNF) ||
    optIncludes (jsAt r quoteI) QNF)

/-- Selection predicate as written in `buildPartialTSVForMissing`
(fields defaulted to `""`; the sentinel-in-quote disjunct sits outside
the occurrence guard). -/
def siteBNeeds (r : List String) (idx : IdxBundle) : Bool :=
  let quoteText := if 0 ≤ idx.quote then (jsAt r idx.quote).getD "" else ""
  let occText := if 0 ≤ idx.occ then (jsAt r idx.occ).getD "" else ""
  let glqText := if 0 ≤ idx.glq then (jsAt r idx.glq).getD "" else ""
  (!(jsTrim quoteText == "") && !(jsTrim occText == "") && !(occText == "0") &&
    ((jsTrim glqText == "") || jsIncludes glqText QNF)) ||
  jsIncludes quoteText QNF

/-- Selection predicate as written in the post-merge-back recount of `main`
(same text as `siteBNeeds`, duplicated in the source). -/
def siteCNeeds (r : List String) (idx : IdxBundle) : Bool :=
  let quoteText := if 0 ≤ idx.quote then (jsAt r idx.quote).getD "" else ""
  let occText := if 0 ≤ idx.occ then (jsAt r idx.occ).getD "" else ""
  let glqText := if 0 ≤ idx.glq then (jsAt r idx.glq).getD "" else ""
  (!(jsTrim quoteText == "") && !(jsTrim occText == "") && !(occText == "0") &&
    ((jsTrim glqText == "") || jsIncludes glqText QNF)) ||
  jsIncludes quoteText QNF

/-- Rows eligible for a derived value: non-blank, non-empty quote,
non-empty occurrence other than "0". -/
def eligibleRow (r : List String) (quoteI occI : Int) : Bool :=
  decide (1 < r.length) && truthyTrim (jsAt r quoteI) && truthyTrim (jsAt r occI) &&
  !(jsAt r occI == some "0")

/-- The repeated missing-count pattern of `mergePreviousGLQuotes`:
resolve indices from the header row, count data rows satisfying the
site-A predicate, guarded on the GLQuote column existing. -/
def missingByHeaders (rows : List (List String)) : Nat :=
  let h := rows.headD []
  let quoteI := quoteChainIdx h
  let occI := jsIndexOf h "Occurrence"
  let glqI := jsIndexOf h "GLQuote"
  if 0 ≤ glqI then
    (rows.drop 1).countP (fun r => decide (1 < r.length) && siteANeeds r quoteI occI glqI)
  else 0

/-- `rows.filter(r => r.length > 1).length` (note: includes the header row). -/
def totalRowsCount (rows : List (List String)) : Nat :=
  (rows.filter (fun r => decide (1 < r.length))).length

/-- `addEmptyGLQuoteColumns(tsvContent)`: synthesize empty GLQuote /
GLOccurrence columns right after the Occurrence column; unchanged content
when there is no Occurrence column. -/
def addEmptyGLQuoteColumns (tsvContent : String) : String :=
  let rows := parseTSV tsvContent
  let headers := rows.headD []
  let occurrenceIndex := jsIndexOf headers "Occurrence"
  if occurrenceIndex == -1 then tsvContent
  else
    let k := occurrenceIndex.toNat + 1
    let newHeaders := spliceIns headers k ["GLQuote", "GLOccurrence"]
    let dataRows := (rows.drop 1).map (fun r =>
      if 1 < r.length then spliceIns r k ["", ""] else padTo r newHeaders.length)
    unparseTSV (newHeaders :: dataRows)

/-- Return object of `mergePreviousGLQuotes`: the `raw` constructor models
the code path that returns a bare string instead of a result object
(current TSV without an Occurrence column). -/
inductive MergedResult where
  | obj (output : String) (missingCount : Nat) (matchedCount : Option Nat)
      (totalDataRows : Option Nat)
  | raw (s : String)
deriving Repr, DecidableEq

def MergedResult.missingCountOf : MergedResult → Option Nat
  | .obj _ m _ _ => some m
  | .raw _ => none

def MergedResult.matchedCountOf : MergedResult → Option Nat
  | .obj _ _ mc _ => mc
  | .raw _ => none

def MergedResult.outputOf : MergedResult → Option String
  | .obj o _ _ _ => some o
  | .raw _ => none

/-- Column indices the merge resolves on the current headers
(`Reference`/`ID`/`Quote`-chain/`Occurrence`; no GL indices are used). -/
def mergeCurrentIdx (headers : List String) : IdxBundle :=
  { ref := jsIndexOf headers "Reference"
    id := jsIndexOf headers "ID"
    quote := quoteChainIdx headers
    occ := jsIndexOf headers "Occurrence"
    glq := -1
    glo := -1 }

/-- Column indices the merge resolves on the previous headers. -/
def mergePreviousIdx (headers : List String) : IdxBundle :=
  { ref := jsIndexOf headers "Reference"
    id := jsIndexOf headers "ID"
    quote := quoteChainIdx headers
    occ := jsIndexOf headers "Occurrence"
    glq := jsIndexOf headers "GLQuote"
    glo := jsIndexOf headers "GLOccurrence" }

/-- Body of the per-row loop of the full merge: pad blank rows, otherwise
scan the previous data rows for the first identity match, splice the
matched (or empty) GLQuote/GLOccurrence values after the Occurrence
column, and report the `matchedCount` contribution. -/
def mergeRowStep (previousRows : List (List String)) (cIdx pIdx : IdxBundle)
    (newLen occNat : Nat) (pGlqI pGloI : Int) (r : List String) :
    List String × Nat :=
  if r.length ≤ 1 then (padTo r newLen, 0)
  else
    match (previousRows.drop 1).find?
        (fun p => decide (1 < p.length) && rowMatches r p cIdx pIdx) with
    | none => (padTo (spliceIns r (occNat + 1) ["", ""]) newLen, 0)
    | some p =>
      let glQuoteValue := (jsAt p pGlqI).getD ""
      let glOccurrenceValue := (jsAt p pGloI).getD ""
      (padTo (spliceIns r (occNat + 1) [glQuoteValue, glOccurrenceValue]) newLen,
        if glQuoteValue == "" && glOccurrenceValue == "" then 0 else 1)

/-- `mergePreviousGLQuotes(tsvContent, ...)` with the resolver outcome
(`previousContent`) passed explicitly.  Branches, in source order:
current already has both GL columns; no previous content; previous lacks
GL columns; current lacks an Occurrence column (bare-string return); the
actual merge. -/
def mergePreviousGLQuotes (tsvContent : String) (previousContent : Option String) :
    MergedResult :=
  let currentRows := parseTSV tsvContent
  let currentHeaders := currentRows.headD []
  let hasGLQuote := currentHeaders.contains "GLQuote"
  let hasGLOccurrence := currentHeaders.contains "GLOccurrence"
  if hasGLQuote && hasGLOccurrence then
    .obj tsvContent (missingByHeaders currentRows) (some 0)
      (some (totalRowsCount currentRows))
  else
    match previousContent with
    | none =>
      let out := addEmptyGLQuoteColumns tsvContent
      let rows := parseTSV out
      .obj out (missingByHeaders rows) (some 0) (some (totalRowsCount rows))
    | some prevContent =>
      let previousRows := parseTSV prevContent
      let previousHeaders := previousRows.headD []
      let pIdx := mergePreviousIdx previousHeaders
      if pIdx.glq == -1 || pIdx.glo == -1 then
        let out := addEmptyGLQuoteColumns tsvContent
        .obj out (missingByHeaders (parseTSV out)) none none
      else
        let cIdx := mergeCurrentIdx currentHeaders
        if cIdx.occ == -1 then
          .raw (addEmptyGLQuoteColumns tsvContent)
        else
          let occNat := cIdx.occ.toNat
          let newHeaders := spliceIns currentHeaders (occNat + 1) ["GLQuote", "GLOccurrence"]
          let processed := (currentRows.drop 1).map
            (mergeRowStep previousRows cIdx pIdx newHeaders.length occNat pIdx.glq pIdx.glo)
          let newRows := newHeaders :: processed.map Prod.fst
          .obj (unparseTSV newRows) (missingByHeaders newRows)
            (some (processed.map Prod.snd).sum) (some (totalRowsCount newRows))

/-- Human-readable descriptor of a missing row (debug side list). -/
def rowDescriptor (r : List String) (idx : IdxBundle) : String :=
  let ref := if 0 ≤ idx.ref then (jsAt r idx.ref).getD "" else ""
  let rid := if 0 ≤ idx.id then (jsAt r idx.id).getD "" else ""
  let qt := if 0 ≤ idx.quote then (jsAt r idx.quote).getD "" else ""
  let oc := if 0 ≤ idx.occ then (jsAt r idx.occ).getD "" else ""
  jsTrim (ref ++ (if ref == "" then "" else " ") ++ "[ID:" ++ rid ++ "] " ++ qt ++
    (if oc == "" then "" else " (occ " ++ oc ++ ")"))

/-- The record returned by `buildPartialTSVForMissing`. -/
structure PartialBuild where
  partialTSV : String
  keys : List String
  idx : IdxBundle
  headers : List String
  rows : List (List String)
  missingKeys : List String
deriving Repr

/-- `buildPartialTSVForMissing(fullTSV)`: keep the header and exactly the
data rows the selection predicate marks as needing computation;
synthesize GL columns first when absent. -/
def buildPartialTSVForMissing (fullTSV : String) : PartialBuild :=
  let rows0 := ((splitOnChar '\n' fullTSV.data).filter
      (fun l => !(jsTrim (String.mk l) == ""))).map
    (fun l => (splitOnChar '\t' l).map String.mk)
  let headers0 := rows0.headD []
  let idx0 := getIndexBundle headers0
  let resolved :=
    if idx0.glq == -1 || idx0.glo == -1 then
      let withCols := addEmptyGLQuoteColumns fullTSV
      let rows1 := parseTSV withCols
      let headers1 := rows1.headD []
      (rows1, headers1, getIndexBundle headers1)
    else (rows0, headers0, idx0)
  let rows := resolved.1
  let headers := resolved.2.1
  let idx := resolved.2.2
  let folded := (rows.drop 1).foldl
    (fun (acc : List (List String) × List String × List String) r =>
      if r.length ≤ 1 then acc
      else if siteBNeeds r idx then
        let key := makeRowKey r idx
        (acc.1 ++ [r],
          (if acc.2.1.contains key then acc.2.1 else acc.2.1 ++ [key]),
          if acc.2.2.length < 10 then acc.2.2 ++ [rowDescriptor r idx] else acc.2.2)
      else acc)
    ([headers], [], [])
  { partialTSV := unparseTSV folded.1
    keys := folded.2.1
    idx := idx
    headers := headers
    rows := rows
    missingKeys := folded.2.2 }

/-- The GLQuote/GLOccurrence values recorded per key by `mergePartialBack`. -/
structure GLPair where
  glq : String
  glo : String
deriving Repr, DecidableEq

/-- The GLQuote/GLOccurrence values a partial data row contributes
(`partIdx.glq >= 0 ? (r[partIdx.glq] ?? '') : ''` and likewise for glo). -/
def glPairOf (pIdx : IdxBundle) (r : List String) : GLPair :=
  { glq := if 0 ≤ pIdx.glq then (jsAt r pIdx.glq).getD "" else ""
    glo := if 0 ≤ pIdx.glo then (jsAt r pIdx.glo).getD "" else "" }

/-- The key → values map built from the partial result's data rows. -/
def partialGLMap (partRows : List (List String)) (pIdx : IdxBundle) :
    List (String × GLPair) :=
  (partRows.drop 1).foldl
    (fun m r =>
      if r.length ≤ 1 then m
      else m ++ [(makeRowKey r pIdx, glPairOf pIdx r)])
    []

/-- JS `Map.get`: the most recent `set` for a key wins. -/
def mapGetLast (m : List (String × GLPair)) (k : String) : Option GLPair :=
  (m.reverse.find? (fun e => e.1 == k)).map Prod.snd

/-- Overwrite the GLQuote/GLOccurrence fields of a matched full row. -/
def applyGL (fullIdx : IdxBundle) (v : GLPair) (r : List String) : List String :=
  let r1 := if 0 ≤ fullIdx.glq then jsSet r fullIdx.glq.toNat v.glq else r
  if 0 ≤ fullIdx.glo then jsSet r1 fullIdx.glo.toNat v.glo else r1

/-- Row-level core of `mergePartialBack`. -/
def mergePartialBackRows (fullRows partRows : List (List String)) :
    List (List String) :=
  let fullIdx := getIndexBundle (fullRows.headD [])
  let pIdx := getIndexBundle (partRows.headD [])
  let m := partialGLMap partRows pIdx
  match fullRows with
  | [] => []
  | h :: t =>
    h :: t.map (fun r =>
      if r.length ≤ 1 then r
      else
        match mapGetLast m (makeRowKey r fullIdx) with
        | none => r
        | some v => applyGL fullIdx v r)

/-- `mergePartialBack(fullTSV, partialTSV)`. -/
def mergePartialBack (fullTSV partialTSV : String) : String :=
  unparseTSV (mergePartialBackRows (parseTSV fullTSV) (parseTSV partialTSV))

/-- The manual fallback applied when the full-file computation collaborator
fails: insert GLQuote/GLOccurrence headers and empty values after the
Occurrence column (blank rows pass through unchanged here); unchanged
content when no Occurrence column exists. -/
def manualFallback (tsvContent : String) : String :=
  let rows := parseTSV tsvContent
  let headers := rows.headD []
  let occurrenceIndex := jsIndexOf headers "Occurrence"
  if occurrenceIndex == -1 then tsvContent
  else
    let k := occurrenceIndex.toNat + 1
    let newHeaders := spliceIns headers k ["GLQuote", "GLOccurrence"]
    let dataRows := (rows.drop 1).map (fun r =>
      if 1 < r.length then spliceIns r k ["", ""] else r)
    unparseTSV (newHeaders :: dataRows)

/-- The full-computation step of `main`: call the collaborator; on failure,
abort when exit-on-error is set, otherwise apply the manual fallback. -/
def fullPathStep (collabFull : String → Except String String) (exitOnError : Bool)
    (tsvContent : String) : Except String String :=
  match collabFull tsvContent with
  | .ok out => .ok out
  | .error e => if exitOnError then .error e else .ok (manualFallback tsvContent)

/-- The post-merge-back recount of `main` (selection predicate re-evaluated
over the full row set; zero when the GLQuote column is unresolved). -/
def recountMissing (s : String) : Nat :=
  let rowsAfter := parseTSV s
  let idxAfter := getIndexBundle (rowsAfter.headD [])
  if 0 ≤ idxAfter.glq then
    (rowsAfter.drop 1).countP (fun r => decide (1 < r.length) && siteCNeeds r idxAfter)
  else 0

/-- Outcome of processing one file: produced output, whether the full-file
computation collaborator was invoked, and whether the run aborted. -/
structure OrchResult where
  output : String
  fullInvoked : Bool
  aborted : Bool
deriving Repr, DecidableEq

/-- Run the full-computation path (collaborator plus fallback/abort). -/
def runFullPath (collabFull : String → Except String String) (exitOnError : Bool)
    (tsv : String) : OrchResult :=
  match fullPathStep collabFull exitOnError tsv with
  | .ok out => { output := out, fullInvoked := true, aborted := false }
  | .error _ => { output := tsv, fullInvoked := true, aborted := true }

/-- Per-file orchestration of `main` after the previous-quote merge
(regenerate-all not requested): skip when nothing is missing, try the
partial-regeneration protocol when only some rows are missing, and fall
through to the full computation otherwise. -/
def orchestrateAfterMerge (collabPartial collabFull : String → Except String String)
    (exitOnError : Bool) (mergedOutput : String) (missingCount : Nat)
    (totalDataRows : Option Nat) : OrchResult :=
  if missingCount = 0 then
    { output := mergedOutput, fullInvoked := false, aborted := false }
  else
    let totalRows := totalDataRows.getD ((splitOnChar '\n' mergedOutput.data).length - 1)
    if missingCount < totalRows then
      match collabPartial (buildPartialTSVForMissing mergedOutput).partialTSV with
      | .error _ => runFullPath collabFull exitOnError mergedOutput
      | .ok partialOut =>
        let tsv2 := mergePartialBack mergedOutput partialOut
        if recountMissing tsv2 = 0 then
          { output := tsv2, fullInvoked := false, aborted := false }
        else runFullPath collabFull exitOnError tsv2
    else runFullPath collabFull exitOnError mergedOutput

/-- An artifact record as returned by the listing API (absent JSON fields
are `none`). -/
structure Artifact where
  name : Option String
  id : Option Int
  created_at : Option String
  created : Option String
  archive_download_url : Option String
  expired : Option Bool
deriving Repr, DecidableEq

/-- The candidate filter of `fetchArtifactZipUrl`: string name ending in
the output-archive suffix, truthy download URL, `expired === false`. -/
def isCandidate (a : Artifact) : Bool :=
  (match a.name with
   | some n => jsEndsWith n "_with_gl_quotes.zip"
   | none => false) &&
  (match a.archive_download_url with
   | some u => !(u == "")
   | none => false) &&
  (a.expired == some false)

/-- `typeof id === 'number' ? id : -1`. -/
def idVal (a : Artifact) : Int := a.id.getD (-1)

/-- `Date.parse(a.created_at || a.created || 0) || 0`, with `jsDateParse`
standing for the NaN-defaulted `Date.parse` of the runtime. -/
def dateVal (jsDateParse : String → Int) (a : Artifact) : Int :=
  match a.created_at with
  | some s =>
    if s == "" then
      match a.created with
      | some s2 => if s2 == "" then jsDateParse "0" else jsDateParse s2
      | none => jsDateParse "0"
    else jsDateParse s
  | none =>
    match a.created with
    | some s2 => if s2 == "" then jsDateParse "0" else jsDateParse s2
    | none => jsDateParse "0"

/-- One step of the `reduce` selecting the newest artifact: higher id wins;
on equal ids the later creation timestamp wins. -/
def selStep (jsDateParse : String → Int) (best : Option Artifact) (cur : Artifact) :
    Option Artifact :=
  match best with
  | none => some cur
  | some b =>
    if idVal cur ≠ idVal b then
      (if idVal b < idVal cur then some cur else some b)
    else if dateVal jsDateParse b < dateVal jsDateParse cur then some cur else some b

/-- The candidate filter plus reduce of `fetchArtifactZipUrl`. -/
def selectArtifact (jsDateParse : String → Int) (artifacts : List Artifact) :
    Option Artifact :=
  (artifacts.filter isCandidate).foldl (selStep jsDateParse) none

/-- Outcome of the artifact-listing request (a thrown fetch, a non-ok
response, or an undecodable body are all `fail`). -/
inductive ListingOutcome where
  | fail
  | ok (artifacts : List Artifact)
deriving Repr

/-- `fetchArtifactZipUrl`: resolved download URL (`none` on failure, no
match, or a falsy URL) plus selected artifact metadata. -/
def fetchArtifactUrl (jsDateParse : String → Int) (listing : ListingOutcome) :
    Option String × Option Artifact :=
  match listing with
  | .fail => (none, none)
  | .ok artifacts =>
    let m := selectArtifact jsDateParse artifacts
    ((match m with
      | some a =>
        (match a.archive_download_url with
          | some u => if u == "" then none else some u
          | none => none)
      | none => none), m)

/-- Outcome of the artifact download: a rejected/non-ok fetch, or a payload
with its first bytes and the result of the zip decode (`none` when the
archive is undecodable). -/
inductive DownloadOutcome where
  | fail
  | payload (firstBytes : List Nat) (decoded : Option (List (String × String)))
deriving Repr

/-- The process-lifetime cache of `getPreviousGLQuotes` (the in-flight
promises are always settled between sequential calls and are therefore
not part of the sequential state). -/
structure GLCache where
  zipUrl : Option String
  artifactMeta : Option Artifact
  zip : Option (List (String × String))
deriving Repr

def emptyGLCache : GLCache := { zipUrl := none, artifactMeta := none, zip := none }

/-- The zip magic-byte check (`PK` = 0x50 0x4B). -/
def magicOk (bytes : List Nat) : Bool :=
  bytes[0]? == some 0x50 && bytes[1]? == some 0x4B

/-- `zipContent.files[fileName]` plus text extraction. -/
def lookupZipFile (files : List (String × String)) (fileName : String) :
    Option String :=
  (files.find? (fun e => e.1 == fileName)).map Prod.snd

/-- One sequential call of `getPreviousGLQuotes`: returns the resolved file
content (or `none`), the updated cache, and the number of artifact-listing
requests issued during the call. -/
def getPreviousGLQuotesStep (jsDateParse : String → Int) (listing : ListingOutcome)
    (download : DownloadOutcome) (fileName : String) (c : GLCache) :
    Option String × GLCache × Nat :=
  let disc :=
    match c.zipUrl with
    | some _ => (c, 0)
    | none =>
      let got := fetchArtifactUrl jsDateParse listing
      ({ c with zipUrl := got.1, artifactMeta := got.2 }, 1)
  let c1 := disc.1
  let listingCalls := disc.2
  match c1.zipUrl with
  | none => (none, c1, listingCalls)
  | some _ =>
    match c1.zip with
    | some z => (lookupZipFile z fileName, c1, listingCalls)
    | none =>
      match download with
      | .fail => (none, c1, listingCalls)
      | .payload bytes dec =>
        if magicOk bytes then
          match dec with
          | some files =>
            (lookupZipFile files fileName, { c1 with zip := some files }, listingCalls)
          | none => (none, c1, listingCalls)
        else (none, c1, listingCalls)

/-- C1: the selection predicate is NOT applied identically at the three
call sites.  The predicates of `buildPartialTSVForMissing` and of the
post-merge-back recount agree on every row and index bundle, but the
predicate of the missing-row counts in `mergePreviousGLQuotes` gates the
sentinel-in-quote disjunct behind the occurrence guard: on a row whose
quote field is the sentinel and whose occurrence is "0", the former two
return `true` while the latter returns `false`. -/
theorem selection_predicate_sites_diverge :
    (∀ (r : List String) (idx : IdxBundle), siteBNeeds r idx = siteCNeeds r idx) ∧
    siteANeeds ["1:1", "xyz1", "QUOTE_NOT_FOUND", "0", ""] 2 3 4 = false ∧
    siteBNeeds ["1:1", "xyz1", "QUOTE_NOT_FOUND", "0", ""]
      ⟨0, 1, 2, 3, 4, 5⟩ = true ∧
    siteCNeeds ["1:1", "xyz1", "QUOTE_NOT_FOUND", "0", ""]
      ⟨0, 1, 2, 3, 4, 5⟩ = true :=
  ⟨fun _ _ => rfl, by decide, by decide, by decide⟩

/-- Lexicographic "at most" on (id, creation date) used to state the
artifact selection policy. -/
def keyLe (jsDateParse : String → Int) (a b : Artifact) : Prop :=
  idVal a < idVal b ∨ (idVal a = idVal b ∧ dateVal jsDateParse a ≤ dateVal jsDateParse b)

theorem keyLe_trans (dp : String → Int) {a b c : Artifact}
    (h1 : keyLe dp a b) (h2 : keyLe dp b c) : keyLe dp a c := by
  rcases h1 with h1 | ⟨h1, h1d⟩ <;> rcases h2 with h2 | ⟨h2, h2d⟩ <;>
    simp only [keyLe] <;> omega

theorem selStep_some_eq (dp : String → Int) (b c : Artifact) :
    ∃ x, selStep dp (some b) c = some x ∧ (x = b ∨ x = c) ∧
      keyLe dp b x ∧ keyLe dp c x := by
  simp only [selStep]
  by_cases h1 : idVal c = idVal b
  · simp only [h1, ne_eq, not_true_eq_false, if_false, if_neg (lt_irrefl _)]
    by_cases h2 : dateVal dp b < dateVal dp c
    · exact ⟨c, by simp [h2], Or.inr rfl, Or.inr ⟨h1.symm, le_of_lt h2⟩,
        Or.inr ⟨rfl, le_refl _⟩⟩
    · exact ⟨b, by simp [h2], Or.inl rfl, Or.inr ⟨rfl, le_refl _⟩,
        Or.inr ⟨h1, not_lt.mp h2⟩⟩
  · simp only [ne_eq, h1, not_false_eq_true, if_true]
    by_cases h2 : idVal b < idVal c
    · exact ⟨c, by simp [h2], Or.inr rfl, Or.inl h2, Or.inr ⟨rfl, le_refl _⟩⟩
    · refine ⟨b, by simp [h2], Or.inl rfl, Or.inr ⟨rfl, le_refl _⟩, Or.inl ?_⟩
      omega

theorem foldl_selStep_max (dp : String → Int) :
    ∀ (l : List Artifact) (b : Artifact),
      ∃ m, l.foldl (selStep dp) (some b) = some m ∧ (m = b ∨ m ∈ l) ∧
        keyLe dp b m ∧ ∀ c ∈ l, keyLe dp c m := by
  intro l
  induction l with
  | nil =>
    intro b
    exact ⟨b, rfl, Or.inl rfl, Or.inr ⟨rfl, le_refl _⟩, by simp⟩
  | cons c t ih =>
    intro b
    obtain ⟨x, hx, hxe, hbx, hcx⟩ := selStep_some_eq dp b c
    obtain ⟨m, hm, hme, hxm, hall⟩ := ih x
    refine ⟨m, by simpa [hx] using hm, ?_, keyLe_trans dp hbx hxm, ?_⟩
    · rcases hme with rfl | hmt
      · rcases hxe with rfl | rfl
        · exact Or.inl rfl
        · exact Or.inr (List.mem_cons_self _ _)
      · exact Or.inr (List.mem_cons_of_mem _ hmt)
    · intro c' hc'
      rcases List.mem_cons.mp hc' with rfl | hct
      · exact keyLe_trans dp hcx hxm
      · exact hall c' hct

/-- C7: `fetchArtifactZipUrl` selects, among the artifacts whose name is a
string ending in "_with_gl_quotes.zip", that carry a truthy download URL
and whose expired flag is false (`isCandidate`), an artifact maximal in
(numeric id, creation timestamp) lexicographic order; with no candidate
the selection and the resolved URL are null. -/
theorem artifact_selection_policy (dp : String → Int) (artifacts : List Artifact) :
    (selectArtifact dp artifacts = none ↔ artifacts.filter isCandidate = []) ∧
    (∀ m, selectArtifact dp artifacts = some m →
      m ∈ artifacts.filter isCandidate ∧
      (∀ c ∈ artifacts.filter isCandidate, keyLe dp c m) ∧
      (fetchArtifactUrl dp (.ok artifacts)).1 =
        (match m.archive_download_url with
          | some u => if u == "" then none else some u
          | none => none)) ∧
    (selectArtifact dp artifacts = none →
      (fetchArtifactUrl dp (.ok artifacts)).1 = none) := by
  rcases hf : artifacts.filter isCandidate with _ | ⟨c, t⟩
  · refine ⟨by simp [selectArtifact, hf], ?_, ?_⟩
    · intro m hm
      simp [selectArtifact, hf] at hm
    · intro hnone
      simp [fetchArtifactUrl, hnone]
  · have hstep : selectArtifact dp artifacts = (t.foldl (selStep dp) (some c)) := by
      simp [selectArtifact, hf, List.foldl_cons, selStep]
    obtain ⟨m, hm, hme, hcm, hall⟩ := foldl_selStep_max dp t c
    refine ⟨?_, ?_, ?_⟩
    · rw [hstep, hm]
      simp
    · intro m' hm'
      rw [hstep, hm] at hm'
      obtain rfl : m = m' := by injection hm'
      refine ⟨?_, ?_, ?_⟩
      · rcases hme with rfl | hmt
        · exact List.mem_cons_self _ _
        · exact List.mem_cons_of_mem _ hmt
      · intro c' hc'
        rcases List.mem_cons.mp hc' with rfl | hct
        · exact hcm
        · exact hall c' hct
      · simp only [fetchArtifactUrl]
        rw [hstep, hm]
    · intro hnone
      rw [hstep, hm] at hnone
      exact absurd hnone (by simp)

/-- Witness for the artifact selection policy at a concrete artifact list:
the artifact with id 7 beats the id-5 artifact and the expired one is
filtered out. -/
theorem artifact_selection_policy_witness :
    selectArtifact (fun _ => 0)
      [⟨some "a_with_gl_quotes.zip", some 5, none, none, some "u5", some false⟩,
       ⟨some "b_with_gl_quotes.zip", some 7, none, none, some "u7", some false⟩,
       ⟨some "c_with_gl_quotes.zip", some 9, none, none, some "u9", some true⟩] =
      some ⟨some "b_with_gl_quotes.zip", some 7, none, none, some "u7", some false⟩ ∧
    (fetchArtifactUrl (fun _ => 0)
      (.ok [⟨some "a_with_gl_quotes.zip", some 5, none, none, some "u5", some false⟩,
            ⟨some "b_with_gl_quotes.zip", some 7, none, none, some "u7", some false⟩,
            ⟨some "c_with_gl_quotes.zip", some 9, none, none, some "u9", some true⟩])).1 =
      some "u7" := by
  have h := artifact_selection_policy (fun _ => 0)
    [⟨some "a_with_gl_quotes.zip", some 5, none, none, some "u5", some false⟩,
     ⟨some "b_with_gl_quotes.zip", some 7, none, none, some "u7", some false⟩,
     ⟨some "c_with_gl_quotes.zip", some 9, none, none, some "u9", some true⟩]
  have hsel : selectArtifact (fun _ => 0)
      [⟨some "a_with_gl_quotes.zip", some 5, none, none, some "u5", some false⟩,
       ⟨some "b_with_gl_quotes.zip", some 7, none, none, some "u7", some false⟩,
       ⟨some "c_with_gl_quotes.zip", some 9, none, none, some "u9", some true⟩] =
      some ⟨some "b_with_gl_quotes.zip", some 7, none, none, some "u7", some false⟩ := by
    decide
  exact ⟨hsel, by simpa using (h.2.1 _ hsel).2.2⟩

/-- C3 counterexample: with a listing that yields no matching artifact
(negative discovery, null URL), a first call leaves `zipUrl` unset, and
the second call issues another artifact-listing request (count 1, where
the claim demands 0). -/
theorem discovery_negative_reissues_listing :
    (getPreviousGLQuotesStep (fun _ => 0) (.ok []) .fail "twl_GEN.tsv"
      (getPreviousGLQuotesStep (fun _ => 0) (.ok []) .fail "twl_GEN.tsv"
        emptyGLCache).2.1).2.2 = 1 := rfl

/-- C3 amended: a discovery that resolved a non-null URL is cached — the
first call stores it, and every subsequent call in the run (any outcomes)
reuses it and issues no further artifact-listing request. -/
theorem discovery_positive_cached (jsDateParse : String → Int)
    (l1 : ListingOutcome) (d1 : DownloadOutcome) (f1 u : String)
    (h : (fetchArtifactUrl jsDateParse l1).1 = some u) :
    ((getPreviousGLQuotesStep jsDateParse l1 d1 f1 emptyGLCache).2.1).zipUrl = some u ∧
    ∀ (dp2 : String → Int) (l2 : ListingOutcome) (d2 : DownloadOutcome) (f2 : String),
      (getPreviousGLQuotesStep dp2 l2 d2 f2
        ((getPreviousGLQuotesStep jsDateParse l1 d1 f1 emptyGLCache).2.1)).2.2 = 0 := by
  have hurl : ∀ (c : GLCache), c.zipUrl = some u →
      ∀ (dp2 : String → Int) (l2 : ListingOutcome) (d2 : DownloadOutcome) (f2 : String),
        (getPreviousGLQuotesStep dp2 l2 d2 f2 c).2.2 = 0 := by
    intro c hc dp2 l2 d2 f2
    simp only [getPreviousGLQuotesStep, hc]
    rcases c.zip with _ | z
    · rcases d2 with _ | ⟨bytes, dec⟩
      · rfl
      · by_cases hm : magicOk bytes = true
        · rcases dec with _ | files <;> simp [hm]
        · simp [Bool.not_eq_true] at hm
          simp [hm]
    · rfl
  have hset : ((getPreviousGLQuotesStep jsDateParse l1 d1 f1 emptyGLCache).2.1).zipUrl
      = some u := by
    simp only [getPreviousGLQuotesStep, emptyGLCache, h]
    rcases d1 with _ | ⟨bytes, dec⟩
    · rfl
    · by_cases hm : magicOk bytes = true
      · rcases dec with _ | files <;> simp [hm]
      · simp [Bool.not_eq_true] at hm
        simp [hm]
  exact ⟨hset, fun dp2 l2 d2 f2 => hurl _ hset dp2 l2 d2 f2⟩

/-- Witness for the amended discovery-caching theorem at a concrete
positive discovery. -/
theorem discovery_positive_cached_witness :
    ((getPreviousGLQuotesStep (fun _ => 0)
        (.ok [⟨some "a_with_gl_quotes.zip", some 5, none, none, some "u5", some false⟩])
        .fail "twl_GEN.tsv" emptyGLCache).2.1).zipUrl = some "u5" ∧
    (getPreviousGLQuotesStep (fun _ => 0) (.ok []) .fail "twl_GEN.tsv"
      ((getPreviousGLQuotesStep (fun _ => 0)
        (.ok [⟨some "a_with_gl_quotes.zip", some 5, none, none, some "u5", some false⟩])
        .fail "twl_GEN.tsv" emptyGLCache).2.1)).2.2 = 0 := by
  have h := discovery_positive_cached (fun _ => 0)
    (.ok [⟨some "a_with_gl_quotes.zip", some 5, none, none, some "u5", some false⟩])
    .fail "twl_GEN.tsv" "u5" (by decide)
  exact ⟨h.1, h.2 (fun _ => 0) (.ok []) .fail "twl_GEN.tsv"⟩

/-- C5: the previous-result resolver degrades every transport/format
failure to `null` — failed or negative artifact listing, failed download,
a payload whose first two bytes are not the zip magic bytes, an
undecodable archive, and a file absent from the archive all yield `none`;
a successfully decoded archive yields exactly the looked-up file content.
The model's total return type `Option String` reflects that no outcome
throws to the caller. -/
theorem resolver_never_throws (jsDateParse : String → Int) (fileName : String) :
    (∀ listing download,
      (fetchArtifactUrl jsDateParse listing).1 = none →
      (getPreviousGLQuotesStep jsDateParse listing download fileName emptyGLCache).1
        = none) ∧
    (∀ listing u,
      (fetchArtifactUrl jsDateParse listing).1 = some u →
      (getPreviousGLQuotesStep jsDateParse listing .fail fileName emptyGLCache).1
        = none) ∧
    (∀ listing u bytes dec,
      (fetchArtifactUrl jsDateParse listing).1 = some u →
      magicOk bytes = false →
      (getPreviousGLQuotesStep jsDateParse listing (.payload bytes dec) fileName
        emptyGLCache).1 = none) ∧
    (∀ listing u bytes,
      (fetchArtifactUrl jsDateParse listing).1 = some u →
      (getPreviousGLQuotesStep jsDateParse listing (.payload bytes none) fileName
        emptyGLCache).1 = none) ∧
    (∀ listing u bytes files,
      (fetchArtifactUrl jsDateParse listing).1 = some u →
      magicOk bytes = true →
      (getPreviousGLQuotesStep jsDateParse listing (.payload bytes (some files))
        fileName emptyGLCache).1 = lookupZipFile files fileName) := by
  refine ⟨?_, ?_, ?_, ?_, ?_⟩
  · intro listing download h
    simp [getPreviousGLQuotesStep, emptyGLCache, h]
  · intro listing u h
    simp [getPreviousGLQuotesStep, emptyGLCache, h]
  · intro listing u bytes dec h hm
    rcases dec with _ | files <;> simp [getPreviousGLQuotesStep, emptyGLCache, h, hm]
  · intro listing u bytes h
    by_cases hm : magicOk bytes = true <;>
      simp [getPreviousGLQuotesStep, emptyGLCache, h, hm]
  · intro listing u bytes files h hm
    simp [getPreviousGLQuotesStep, emptyGLCache, h, hm]

/-- Witness for the resolver-degradation theorem: a bad-magic payload
(HTML error page) yields `none`, and a good archive yields the file. -/
theorem resolver_never_throws_witness :
    (getPreviousGLQuotesStep (fun _ => 0)
      (.ok [⟨some "a_with_gl_quotes.zip", some 5, none, none, some "u5", some false⟩])
      (.payload [0x3C, 0x68] none) "twl_GEN.tsv" emptyGLCache).1 = none ∧
    (getPreviousGLQuotesStep (fun _ => 0)
      (.ok [⟨some "a_with_gl_quotes.zip", some 5, none, none, some "u5", some false⟩])
      (.payload [0x50, 0x4B] (some [("twl_GEN.tsv", "data")])) "twl_GEN.tsv"
      emptyGLCache).1 = some "data" := by
  have h := resolver_never_throws (fun _ => 0) "twl_GEN.tsv"
  refine ⟨h.2.2.1 (.ok [⟨some "a_with_gl_quotes.zip", some 5, none, none,
    some "u5", some false⟩]) "u5" [0x3C, 0x68] none (by decide) (by decide), ?_⟩
  have h2 := h.2.2.2.2 (.ok [⟨some "a_with_gl_quotes.zip", some 5, none, none,
    some "u5", some false⟩]) "u5" [0x50, 0x4B] [("twl_GEN.tsv", "data")]
    (by decide) (by decide)
  simpa using h2

/-- C8: when only part of the rows are missing and the partial computation
succeeds and the re-evaluated selection predicate finds zero rows still
missing after merge-back, the orchestration never invokes the full-file
computation for that file, and the merged-back content is the output. -/
theorem partial_complete_skips_full
    (collabPartial collabFull : String → Except String String) (exitOnError : Bool)
    (mergedOutput partialOut : String) (missingCount : Nat)
    (totalDataRows : Option Nat)
    (hp : collabPartial (buildPartialTSVForMissing mergedOutput).partialTSV
      = .ok partialOut)
    (hr : recountMissing (mergePartialBack mergedOutput partialOut) = 0)
    (ht : missingCount
      < totalDataRows.getD ((splitOnChar '\n' mergedOutput.data).length - 1)) :
    (orchestrateAfterMerge collabPartial collabFull exitOnError mergedOutput
      missingCount totalDataRows).fullInvoked = false ∧
    (missingCount ≠ 0 →
      (orchestrateAfterMerge collabPartial collabFull exitOnError mergedOutput
        missingCount totalDataRows).output
        = mergePartialBack mergedOutput partialOut) := by
  by_cases h0 : missingCount = 0
  · subst h0
    exact ⟨rfl, fun h => absurd rfl h⟩
  · simp only [orchestrateAfterMerge, if_neg h0, if_pos ht, hp, hr, if_pos rfl]
    exact ⟨rfl, fun _ => rfl⟩

/-- Witness for the partial-complete scenario: a one-data-row file whose
GLQuote is already filled after merge-back, so the recount is zero and
the full collaborator (which would fail loudly) is never consulted. -/
theorem partial_complete_skips_full_witness :
    (orchestrateAfterMerge (fun _ => .ok "x") (fun _ => .error "must not run") false
      "Reference\tID\tQuote\tOccurrence\tGLQuote\tGLOccurrence\nr1\tid1\tword\t1\tvalue\t1"
      1 (some 5)).fullInvoked = false := by
  exact (partial_complete_skips_full (fun _ => .ok "x") (fun _ => .error "must not run")
    false
    "Reference\tID\tQuote\tOccurrence\tGLQuote\tGLOccurrence\nr1\tid1\tword\t1\tvalue\t1"
    "x" 1 (some 5) rfl (by decide) (by decide)).1

/-- Inserting values in the middle of a row keeps every original field,
in order. -/
theorem sublist_spliceIns {α : Type} (r : List α) (k : Nat) (xs : List α) :
    r.Sublist (spliceIns r k xs) := by
  have h2 : (r.take k ++ r.drop k).Sublist (r.take k ++ (xs ++ r.drop k)) :=
    (List.sublist_append_right xs (r.drop k)).append_left (r.take k)
  rw [List.take_append_drop] at h2
  simpa [spliceIns, List.append_assoc] using h2

/-- C4: when the full-file collaborator fails and exit-on-error is not
set, the engine's output for the file is the manual fallback, which
inserts the GLQuote/GLOccurrence columns immediately after the
Occurrence column (original content when no Occurrence column exists);
every field a row carried before the failure — including any derived
values already merged in — reappears in its output row. -/
theorem full_failure_manual_fallback
    (collabFull : String → Except String String) (tsv e : String)
    (hfail : collabFull tsv = .error e) :
    fullPathStep collabFull false tsv = .ok (manualFallback tsv) ∧
    (jsIndexOf ((parseTSV tsv).headD []) "Occurrence" = -1 →
      manualFallback tsv = tsv) ∧
    (∀ k : Nat, jsIndexOf ((parseTSV tsv).headD []) "Occurrence" = (k : Int) →
      manualFallback tsv = unparseTSV
        (spliceIns ((parseTSV tsv).headD []) (k + 1) ["GLQuote", "GLOccurrence"] ::
          ((parseTSV tsv).drop 1).map
            (fun r => if 1 < r.length then spliceIns r (k + 1) ["", ""] else r)) ∧
      ∀ r ∈ (parseTSV tsv).drop 1,
        r.Sublist (if 1 < r.length then spliceIns r (k + 1) ["", ""] else r)) := by
  refine ⟨by simp [fullPathStep, hfail], ?_, ?_⟩
  · intro h
    simp only [manualFallback]
    rw [h]
    simp
  · intro k hk
    constructor
    · simp only [manualFallback]
      rw [hk]
      norm_num
      intro hc
      exact absurd hc (by omega)
    · intro r _
      by_cases h1 : 1 < r.length
      · simpa [h1] using sublist_spliceIns r (k + 1) ["", ""]
      · simp [h1]

/-- Witness for the manual fallback on a file that already carries merged
derived values: the collaborator fails, the output inserts a fresh column
pair after Occurrence, and the previously merged value "old" survives. -/
theorem full_failure_manual_fallback_witness :
    fullPathStep (fun _ => .error "boom") false
      "Reference\tID\tQuote\tOccurrence\tGLQuote\tGLOccurrence\nr1\tid1\tword\t1\told\t1"
      = .ok (manualFallback
        "Reference\tID\tQuote\tOccurrence\tGLQuote\tGLOccurrence\nr1\tid1\tword\t1\told\t1") ∧
    manualFallback
      "Reference\tID\tQuote\tOccurrence\tGLQuote\tGLOccurrence\nr1\tid1\tword\t1\told\t1"
      = "Reference\tID\tQuote\tOccurrence\tGLQuote\tGLOccurrence\tGLQuote\tGLOccurrence\nr1\tid1\tword\t1\t\t\told\t1" := by
  refine ⟨(full_failure_manual_fallback (fun _ => .error "boom") _ "boom" rfl).1, ?_⟩
  have h := (full_failure_manual_fallback (fun _ => .error "boom")
    "Reference\tID\tQuote\tOccurrence\tGLQuote\tGLOccurrence\nr1\tid1\tword\t1\told\t1"
    "boom" rfl).2.2 3 (by decide)
  rw [h.1]
  decide

theorem spliceIns_length {α : Type} (l : List α) (k : Nat) (xs : List α) :
    (spliceIns l k xs).length = l.length + xs.length := by
  simp [spliceIns]
  omega

theorem padTo_length (l : List String) (n : Nat) :
    (padTo l n).length = max l.length n := by
  simp [padTo]
  omega

/-- Reading `padTo l n` strictly below `l.length` reads `l`. -/
theorem padTo_getElem_lt (l : List String) (n i : Nat) (h : i < l.length) :
    (padTo l n)[i]? = l[i]? := by
  simp [padTo, List.getElem?_append_left h]

/-- C10: in the full merge, a current data row matched to a previous row
always receives that previous row's GLQuote and GLOccurrence values
(empty-string defaults included) at the two positions inserted after the
Occurrence column, while the row's `matchedCount` contribution is 1
exactly when at least one of the two copied values is non-empty. -/
theorem matched_row_copies_values (previousRows : List (List String))
    (cIdx pIdx : IdxBundle) (newLen occNat : Nat) (pGlqI pGloI : Int)
    (r p : List String) (hlen : 1 < r.length)
    (hfind : (previousRows.drop 1).find?
      (fun q => decide (1 < q.length) && rowMatches r q cIdx pIdx) = some p)
    (hb : occNat + 1 ≤ r.length) :
    ((mergeRowStep previousRows cIdx pIdx newLen occNat pGlqI pGloI r).1[occNat + 1]?
        = some ((jsAt p pGlqI).getD "") ∧
      (mergeRowStep previousRows cIdx pIdx newLen occNat pGlqI pGloI r).1[occNat + 2]?
        = some ((jsAt p pGloI).getD "")) ∧
    ((mergeRowStep previousRows cIdx pIdx newLen occNat pGlqI pGloI r).2 = 1 ↔
      ((jsAt p pGlqI).getD "" ≠ "" ∨ (jsAt p pGloI).getD "" ≠ "")) := by
  have hnle : ¬(r.length ≤ 1) := by omega
  simp only [mergeRowStep, hnle, if_false, hfind]
  set gv := (jsAt p pGlqI).getD "" with hgv
  set ov := (jsAt p pGloI).getD "" with hov
  have htake : (r.take (occNat + 1)).length = occNat + 1 := by
    simp [List.length_take]
    omega
  have hsplen : (spliceIns r (occNat + 1) [gv, ov]).length = r.length + 2 :=
    spliceIns_length r (occNat + 1) [gv, ov]
  have hlen2 : (r.take (occNat + 1) ++ [gv, ov]).length = occNat + 3 := by
    simp [htake]
  refine ⟨⟨?_, ?_⟩, ?_⟩
  · rw [padTo_getElem_lt _ _ _ (by omega)]
    simp only [spliceIns]
    rw [List.getElem?_append_left (by omega)]
    rw [List.getElem?_append_right (by omega)]
    simp [htake]
  · rw [padTo_getElem_lt _ _ _ (by omega)]
    simp only [spliceIns]
    rw [List.getElem?_append_left (by omega)]
    rw [List.getElem?_append_right (by omega)]
    simp [htake]
  · by_cases h1 : gv = ""
    · by_cases h2 : ov = "" <;> simp [h1, h2]
    · simp [h1]

/-- Witness for the matched-row copy: the previous row carries empty
derived values, they are still copied in, and the contribution is 0. -/
theorem matched_row_copies_values_witness :
    ((mergeRowStep [["h"], ["r1", "id1", "word", "1", "", ""]]
        ⟨0, 1, 2, 3, -1, -1⟩ ⟨0, 1, 2, 3, 4, 5⟩ 6 3 4 5
        ["r1", "id1", "word", "1"]).1[4]? = some "" ∧
      (mergeRowStep [["h"], ["r1", "id1", "word", "1", "", ""]]
        ⟨0, 1, 2, 3, -1, -1⟩ ⟨0, 1, 2, 3, 4, 5⟩ 6 3 4 5
        ["r1", "id1", "word", "1"]).2 = 0) := by
  have h := matched_row_copies_values [["h"], ["r1", "id1", "word", "1", "", ""]]
    ⟨0, 1, 2, 3, -1, -1⟩ ⟨0, 1, 2, 3, 4, 5⟩ 6 3 4 5
    ["r1", "id1", "word", "1"] ["r1", "id1", "word", "1", "", ""]
    (by decide) (by decide) (by decide)
  exact ⟨by simpa using h.1.1, by decide⟩

/-- The keys stored by the partial-result map are exactly the keys of the
partial result's non-blank data rows. -/
theorem partialGLMap_fst (partRows : List (List String)) (pIdx : IdxBundle) :
    (partialGLMap partRows pIdx).map Prod.fst
      = ((partRows.drop 1).filter (fun q => decide (1 < q.length))).map
          (fun q => makeRowKey q pIdx) := by
  have go : ∀ (l : List (List String)) (acc : List (String × GLPair)),
      ((l.foldl (fun m r =>
        if r.length ≤ 1 then m
        else m ++ [(makeRowKey r pIdx, glPairOf pIdx r)])
        acc).map Prod.fst)
        = acc.map Prod.fst ++ (l.filter (fun q => decide (1 < q.length))).map
            (fun q => makeRowKey q pIdx) := by
    intro l
    induction l with
    | nil => simp
    | cons r t ih =>
      intro acc
      by_cases h : r.length ≤ 1
      · have h2 : ¬(1 < r.length) := by omega
        simp [List.foldl_cons, h, h2, ih]
      · have h2 : 1 < r.length := by omega
        simp [List.foldl_cons, h, h2, ih]
  simpa [partialGLMap] using go (partRows.drop 1) []

/-- A key that occurs in no entry of the map resolves to nothing. -/
theorem mapGetLast_eq_none (m : List (String × GLPair)) (k : String)
    (h : k ∉ m.map Prod.fst) : mapGetLast m k = none := by
  have hf : m.reverse.find? (fun e => e.1 == k) = none := by
    rw [List.find?_eq_none]
    intro e he
    have hm : e.1 ∈ m.map Prod.fst :=
      List.mem_map_of_mem Prod.fst (List.mem_reverse.mp he)
    simp only [beq_iff_eq]
    intro hek
    exact h (hek ▸ hm)
  simp [mapGetLast, hf]

theorem idxOf?_getElem {a : String} :
    ∀ {l : List String} {i : Nat}, idxOf? a l = some i → l[i]? = some a := by
  intro l
  induction l with
  | nil => intro i h; simp [idxOf?] at h
  | cons b t ih =>
    intro i h
    simp only [idxOf?] at h
    by_cases hb : (b == a) = true
    · rw [if_pos hb] at h
      obtain rfl : (0 : Nat) = i := by injection h
      simpa using (beq_iff_eq.mp hb)
    · rw [if_neg hb] at h
      rcases Option.map_eq_some'.mp h with ⟨j, hj, rfl⟩
      simpa using ih hj

theorem jsIndexOf_eq_ofNat {l : List String} {a : String} {n : Nat}
    (h : jsIndexOf l a = (n : Int)) : idxOf? a l = some n := by
  rcases he : idxOf? a l with _ | m
  · simp only [jsIndexOf, he] at h
    exact absurd h (by omega)
  · simp only [jsIndexOf, he] at h
    obtain rfl : m = n := by omega
    rfl

/-- The GLQuote and GLOccurrence columns never resolve to the same
position. -/
theorem getIndexBundle_glq_glo_ne (headers : List String) (gq go : Nat)
    (hq : (getIndexBundle headers).glq = (gq : Int))
    (ho : (getIndexBundle headers).glo = (go : Int)) : gq ≠ go := by
  intro hcontra
  have h1 : headers[gq]? = some "GLQuote" := idxOf?_getElem (jsIndexOf_eq_ofNat hq)
  have h2 : headers[go]? = some "GLOccurrence" := idxOf?_getElem (jsIndexOf_eq_ofNat ho)
  rw [hcontra] at h1
  rw [h1] at h2
  exact absurd (by injection h2) (by decide)

theorem jsSet_getElem_self (r : List String) (i : Nat) (v : String)
    (h : i < r.length) : (jsSet r i v)[i]? = some v := by
  simp [jsSet, h, List.getElem?_set_self']

theorem jsSet_getElem_ne (r : List String) (i j : Nat) (v : String)
    (h : i < r.length) (hne : i ≠ j) : (jsSet r i v)[j]? = r[j]? := by
  simp [jsSet, h, List.getElem?_set_ne hne]

theorem jsSet_length_of_lt (r : List String) (i : Nat) (v : String)
    (h : i < r.length) : (jsSet r i v).length = r.length := by
  simp [jsSet, h]

/-- `applyGL` changes a (well-formed) row only at the two derived-value
positions. -/
theorem applyGL_spec (fIdx : IdxBundle) (v : GLPair) (r : List String)
    (gq go : Nat) (hgq : fIdx.glq = (gq : Int)) (hgo : fIdx.glo = (go : Int))
    (h1 : gq < r.length) (h2 : go < r.length) (hne : gq ≠ go) :
    (applyGL fIdx v r).length = r.length ∧
    (applyGL fIdx v r)[gq]? = some v.glq ∧
    (applyGL fIdx v r)[go]? = some v.glo ∧
    ∀ j, j ≠ gq → j ≠ go → (applyGL fIdx v r)[j]? = r[j]? := by
  have hgq0 : 0 ≤ fIdx.glq := by omega
  have hgo0 : 0 ≤ fIdx.glo := by omega
  have hgqn : fIdx.glq.toNat = gq := by omega
  have hgon : fIdx.glo.toNat = go := by omega
  simp only [applyGL, if_pos hgq0, if_pos hgo0, hgqn, hgon]
  have hlen1 : (jsSet r gq v.glq).length = r.length := jsSet_length_of_lt r gq v.glq h1
  refine ⟨?_, ?_, ?_, ?_⟩
  · rw [jsSet_length_of_lt _ go v.glo (by omega), hlen1]
  · rw [jsSet_getElem_ne _ go gq v.glo (by omega) (Ne.symm hne),
      jsSet_getElem_self r gq v.glq h1]
  · rw [jsSet_getElem_self _ go v.glo (by omega)]
  · intro j hj1 hj2
    rw [jsSet_getElem_ne _ go j v.glo (by omega) (Ne.symm hj2),
      jsSet_getElem_ne r gq j v.glq h1 (Ne.symm hj1)]

/-- C2: merge-back is a targeted overwrite.  The header row is unchanged;
a blank data row is unchanged; a data row whose identity key is absent
from the partial result's data-row keys is bit-identical in the output;
and a data row whose key resolves in the partial map keeps its length and
every field other than the GLQuote/GLOccurrence positions, which receive
the partial result's values. -/
theorem merge_back_targeted (fullRows partRows : List (List String)) (i : Nat)
    (r : List String) (hr : fullRows[i + 1]? = some r) :
    ((mergePartialBackRows fullRows partRows)[0]? = fullRows[0]?) ∧
    (r.length ≤ 1 → (mergePartialBackRows fullRows partRows)[i + 1]? = some r) ∧
    (makeRowKey r (getIndexBundle (fullRows.headD [])) ∉
        ((partRows.drop 1).filter (fun q => decide (1 < q.length))).map
          (fun q => makeRowKey q (getIndexBundle (partRows.headD []))) →
      (mergePartialBackRows fullRows partRows)[i + 1]? = some r) ∧
    (∀ (v : GLPair) (gq go : Nat), 1 < r.length →
      mapGetLast (partialGLMap partRows (getIndexBundle (partRows.headD [])))
        (makeRowKey r (getIndexBundle (fullRows.headD []))) = some v →
      (getIndexBundle (fullRows.headD [])).glq = (gq : Int) →
      (getIndexBundle (fullRows.headD [])).glo = (go : Int) →
      gq < r.length → go < r.length →
      ∃ r2, (mergePartialBackRows fullRows partRows)[i + 1]? = some r2 ∧
        r2.length = r.length ∧ r2[gq]? = some v.glq ∧ r2[go]? = some v.glo ∧
        ∀ j, j ≠ gq → j ≠ go → r2[j]? = r[j]?) := by
  rcases fullRows with _ | ⟨h, t⟩
  · simp at hr
  · have ht : t[i]? = some r := by simpa using hr
    have hout : ∀ f : List String → List String,
        (h :: t.map f)[i + 1]? = some (f r) := by
      intro f
      simp [List.getElem?_map, ht]
    refine ⟨by simp [mergePartialBackRows], ?_, ?_, ?_⟩
    · intro hblank
      simp only [mergePartialBackRows]
      rw [hout]
      rw [if_pos hblank]
    · intro hkey
      simp only [mergePartialBackRows]
      rw [hout]
      by_cases hblank : r.length ≤ 1
      · rw [if_pos hblank]
      · rw [if_neg hblank]
        have hnone : mapGetLast
            (partialGLMap partRows (getIndexBundle (partRows.headD [])))
            (makeRowKey r (getIndexBundle ((h :: t).headD []))) = none := by
          apply mapGetLast_eq_none
          rw [partialGLMap_fst]
          simpa using hkey
        rw [hnone]
    · intro v gq go hlen hget hgq hgo hb1 hb2
      have hne : gq ≠ go :=
        getIndexBundle_glq_glo_ne ((h :: t).headD []) gq go hgq hgo
      obtain ⟨hl, he1, he2, hother⟩ :=
        applyGL_spec (getIndexBundle ((h :: t).headD [])) v r gq go hgq hgo hb1 hb2 hne
      refine ⟨applyGL (getIndexBundle ((h :: t).headD [])) v r, ?_, hl, he1, he2, hother⟩
      simp only [mergePartialBackRows]
      rw [hout]
      rw [if_neg (by omega), hget]

/-- Witness for the targeted merge-back on a concrete pair of row sets:
the unmatched data row survives bit-identically and the matched row
receives the new values only at the GL positions. -/
theorem merge_back_targeted_witness :
    (mergePartialBackRows
      [["Reference", "ID", "Quote", "Occurrence", "GLQuote", "GLOccurrence"],
       ["r1", "id1", "w", "1", "old", "0"],
       ["r2", "id2", "x", "1", "keep", "1"]]
      [["Reference", "ID", "Quote", "Occurrence", "GLQuote", "GLOccurrence"],
       ["r1", "id1", "w", "1", "new", "2"]])[2]?
      = some ["r2", "id2", "x", "1", "keep", "1"] ∧
    ∃ r2, (mergePartialBackRows
      [["Reference", "ID", "Quote", "Occurrence", "GLQuote", "GLOccurrence"],
       ["r1", "id1", "w", "1", "old", "0"],
       ["r2", "id2", "x", "1", "keep", "1"]]
      [["Reference", "ID", "Quote", "Occurrence", "GLQuote", "GLOccurrence"],
       ["r1", "id1", "w", "1", "new", "2"]])[1]? = some r2 ∧
      r2.length = 6 ∧ r2[4]? = some "new" ∧ r2[5]? = some "2" ∧
      ∀ j, j ≠ 4 → j ≠ 5 →
        r2[j]? = (["r1", "id1", "w", "1", "old", "0"] : List String)[j]? := by
  constructor
  · exact (merge_back_targeted
      [["Reference", "ID", "Quote", "Occurrence", "GLQuote", "GLOccurrence"],
       ["r1", "id1", "w", "1", "old", "0"],
       ["r2", "id2", "x", "1", "keep", "1"]]
      [["Reference", "ID", "Quote", "Occurrence", "GLQuote", "GLOccurrence"],
       ["r1", "id1", "w", "1", "new", "2"]]
      1 ["r2", "id2", "x", "1", "keep", "1"] (by decide)).2.2.1 (by decide)
  · have h := (merge_back_targeted
      [["Reference", "ID", "Quote", "Occurrence", "GLQuote", "GLOccurrence"],
       ["r1", "id1", "w", "1", "old", "0"],
       ["r2", "id2", "x", "1", "keep", "1"]]
      [["Reference", "ID", "Quote", "Occurrence", "GLQuote", "GLOccurrence"],
       ["r1", "id1", "w", "1", "new", "2"]]
      0 ["r1", "id1", "w", "1", "old", "0"] (by decide)).2.2.2
      ⟨"new", "2"⟩ 4 5 (by decide) (by decide) (by decide) (by decide)
      (by decide) (by decide)
    simpa using h

theorem keySep_data : keySep.data = ['␟'] := rfl

theorem key4_data (a b c d : String) :
    (jsJoin keySep [a, b, c, d]).data
      = a.data ++ '␟' :: (b.data ++ '␟' :: (c.data ++ '␟' :: d.data)) := by
  simp [jsJoin, String.data_append, keySep_data, List.append_assoc]

/-- Splitting at a character that occurs in neither left part is
unambiguous. -/
theorem sep_split_unique {s : Char} :
    ∀ {u1 : List Char} {u2 v1 v2 : List Char}, u1 ++ s :: v1 = u2 ++ s :: v2 →
      s ∉ u1 → s ∉ u2 → u1 = u2 ∧ v1 = v2 := by
  intro u1
  induction u1 with
  | nil =>
    intro u2 v1 v2 h h1 h2
    cases u2 with
    | nil => simpa using h
    | cons c u2 =>
      simp only [List.nil_append, List.cons_append, List.cons.injEq] at h
      exact absurd (h.1 ▸ List.mem_cons_self c u2) h2
  | cons a u1 ih =>
    intro u2 v1 v2 h h1 h2
    cases u2 with
    | nil =>
      simp only [List.nil_append, List.cons_append, List.cons.injEq] at h
      exact absurd (h.1 ▸ List.mem_cons_self a u1) h1
    | cons c u2 =>
      simp only [List.cons_append, List.cons.injEq] at h
      obtain ⟨rfl, hrest⟩ := h
      obtain ⟨he, hv⟩ := ih hrest (fun hm => h1 (List.mem_cons_of_mem _ hm))
        (fun hm => h2 (List.mem_cons_of_mem _ hm))
      exact ⟨by rw [he], hv⟩

/-- Four separator-free components joined with the key separator are
recoverable: the joined keys agree iff all components agree. -/
theorem key4_inj (a b c d e f g k : String)
    (h : jsJoin keySep [a, b, c, d] = jsJoin keySep [e, f, g, k])
    (ha : '␟' ∉ a.data) (he : '␟' ∉ e.data)
    (hb : '␟' ∉ b.data) (hf : '␟' ∉ f.data)
    (hc : '␟' ∉ c.data) (hg : '␟' ∉ g.data) :
    a = e ∧ b = f ∧ c = g ∧ d = k := by
  have hd := congrArg String.data h
  rw [key4_data, key4_data] at hd
  obtain ⟨h1, hrest⟩ := sep_split_unique hd ha he
  obtain ⟨h2, hrest2⟩ := sep_split_unique hrest hb hf
  obtain ⟨h3, h4⟩ := sep_split_unique hrest2 hc hg
  exact ⟨String.ext h1, String.ext h2, String.ext h3, String.ext h4⟩

/-- A resolved, in-bounds field read is defined. -/
theorem jsAt_eq_some (r : List String) (i : Int) (h0 : 0 ≤ i)
    (hb : i.toNat < r.length) : jsAt r i = some ((jsAt r i).getD "") := by
  simp [jsAt, h0, List.getElem?_eq_getElem hb]

/-- C6: with all four identity columns resolved in both bundles, rows
long enough to carry them, and the key separator absent from the key
fields, the `makeRowKey` equality and the four field-wise comparisons of
`mergePreviousGLQuotes` both hold exactly when the Reference, ID, Quote
and Occurrence fields are pairwise equal; in particular rows differing in
their Occurrence field never match under either relation. -/
theorem row_identity_four_components (r p : List String) (cIdx pIdx : IdxBundle)
    (hcr : 0 ≤ cIdx.ref) (hci : 0 ≤ cIdx.id) (hcq : 0 ≤ cIdx.quote)
    (hco : 0 ≤ cIdx.occ)
    (hpr : 0 ≤ pIdx.ref) (hpid : 0 ≤ pIdx.id) (hpq : 0 ≤ pIdx.quote)
    (hpo : 0 ≤ pIdx.occ)
    (hbr : cIdx.ref.toNat < r.length) (hbi : cIdx.id.toNat < r.length)
    (hbq : cIdx.quote.toNat < r.length) (hbo : cIdx.occ.toNat < r.length)
    (hqr : pIdx.ref.toNat < p.length) (hqi : pIdx.id.toNat < p.length)
    (hqq : pIdx.quote.toNat < p.length) (hqo : pIdx.occ.toNat < p.length)
    (hs1 : '␟' ∉ ((jsAt r cIdx.ref).getD "").data)
    (hs2 : '␟' ∉ ((jsAt p pIdx.ref).getD "").data)
    (hs3 : '␟' ∉ ((jsAt r cIdx.id).getD "").data)
    (hs4 : '␟' ∉ ((jsAt p pIdx.id).getD "").data)
    (hs5 : '␟' ∉ ((jsAt r cIdx.quote).getD "").data)
    (hs6 : '␟' ∉ ((jsAt p pIdx.quote).getD "").data) :
    (makeRowKey r cIdx = makeRowKey p pIdx ↔
      (jsAt r cIdx.ref = jsAt p pIdx.ref ∧ jsAt r cIdx.id = jsAt p pIdx.id ∧
       jsAt r cIdx.quote = jsAt p pIdx.quote ∧ jsAt r cIdx.occ = jsAt p pIdx.occ)) ∧
    (rowMatches r p cIdx pIdx = true ↔
      (jsAt r cIdx.ref = jsAt p pIdx.ref ∧ jsAt r cIdx.id = jsAt p pIdx.id ∧
       jsAt r cIdx.quote = jsAt p pIdx.quote ∧ jsAt r cIdx.occ = jsAt p pIdx.occ)) ∧
    (jsAt r cIdx.occ ≠ jsAt p pIdx.occ →
      makeRowKey r cIdx ≠ makeRowKey p pIdx ∧ rowMatches r p cIdx pIdx = false) := by
  have hkey1 : makeRowKey r cIdx = jsJoin keySep
      [(jsAt r cIdx.ref).getD "", (jsAt r cIdx.id).getD "",
       (jsAt r cIdx.quote).getD "", (jsAt r cIdx.occ).getD ""] := by
    simp [makeRowKey, hcr, hci, hcq, hco]
  have hkey2 : makeRowKey p pIdx = jsJoin keySep
      [(jsAt p pIdx.ref).getD "", (jsAt p pIdx.id).getD "",
       (jsAt p pIdx.quote).getD "", (jsAt p pIdx.occ).getD ""] := by
    simp [makeRowKey, hpr, hpid, hpq, hpo]
  have opt : ∀ (x : Option String) (y : Option String),
      x = some (x.getD "") → y = some (y.getD "") → (x.getD "" = y.getD "" ↔ x = y) := by
    intro x y hx hy
    constructor
    · intro hxy
      rw [hx, hy, hxy]
    · intro hxy
      rw [hxy]
  have o1 := opt _ _ (jsAt_eq_some r cIdx.ref hcr hbr) (jsAt_eq_some p pIdx.ref hpr hqr)
  have o2 := opt _ _ (jsAt_eq_some r cIdx.id hci hbi) (jsAt_eq_some p pIdx.id hpid hqi)
  have o3 := opt _ _ (jsAt_eq_some r cIdx.quote hcq hbq) (jsAt_eq_some p pIdx.quote hpq hqq)
  have o4 := opt _ _ (jsAt_eq_some r cIdx.occ hco hbo) (jsAt_eq_some p pIdx.occ hpo hqo)
  have hkeyIff : makeRowKey r cIdx = makeRowKey p pIdx ↔
      (jsAt r cIdx.ref = jsAt p pIdx.ref ∧ jsAt r cIdx.id = jsAt p pIdx.id ∧
       jsAt r cIdx.quote = jsAt p pIdx.quote ∧ jsAt r cIdx.occ = jsAt p pIdx.occ) := by
    rw [hkey1, hkey2]
    constructor
    · intro h
      obtain ⟨h1, h2, h3, h4⟩ := key4_inj _ _ _ _ _ _ _ _ h hs1 hs2 hs3 hs4 hs5 hs6
      exact ⟨o1.mp h1, o2.mp h2, o3.mp h3, o4.mp h4⟩
    · intro ⟨h1, h2, h3, h4⟩
      rw [h1, h2, h3, h4]
  have hmatchIff : rowMatches r p cIdx pIdx = true ↔
      (jsAt r cIdx.ref = jsAt p pIdx.ref ∧ jsAt r cIdx.id = jsAt p pIdx.id ∧
       jsAt r cIdx.quote = jsAt p pIdx.quote ∧ jsAt r cIdx.occ = jsAt p pIdx.occ) := by
    simp [rowMatches, hcr, hci, hcq, hco, hpr, hpid, hpq, hpo, and_assoc]
  refine ⟨hkeyIff, hmatchIff, ?_⟩
  intro hocc
  constructor
  · intro hk
    exact hocc (hkeyIff.mp hk).2.2.2
  · rcases hrm : rowMatches r p cIdx pIdx with _ | _
    · rfl
    · exact absurd (hmatchIff.mp hrm).2.2.2 hocc

/-- Witness for the identity relation: equal key fields produce equal
keys and a successful field-wise match on concrete rows. -/
theorem row_identity_four_components_witness :
    makeRowKey ["1:1", "aaaa", "word", "1"] ⟨0, 1, 2, 3, -1, -1⟩
      = makeRowKey ["1:1", "aaaa", "word", "1", "x", "y"] ⟨0, 1, 2, 3, 4, 5⟩ ∧
    rowMatches ["1:1", "aaaa", "word", "1"] ["1:1", "aaaa", "word", "1", "x", "y"]
      ⟨0, 1, 2, 3, -1, -1⟩ ⟨0, 1, 2, 3, 4, 5⟩ = true ∧
    makeRowKey ["1:1", "aaaa", "word", "1"] ⟨0, 1, 2, 3, -1, -1⟩
      ≠ makeRowKey ["1:1", "aaaa", "word", "2", "x", "y"] ⟨0, 1, 2, 3, 4, 5⟩ := by
  have h1 := row_identity_four_components ["1:1", "aaaa", "word", "1"]
    ["1:1", "aaaa", "word", "1", "x", "y"] ⟨0, 1, 2, 3, -1, -1⟩ ⟨0, 1, 2, 3, 4, 5⟩
    (by decide) (by decide) (by decide) (by decide) (by decide) (by decide)
    (by decide) (by decide) (by decide) (by decide) (by decide) (by decide)
    (by decide) (by decide) (by decide) (by decide) (by decide) (by decide)
    (by decide) (by decide) (by decide) (by decide)
  have h2 := row_identity_four_components ["1:1", "aaaa", "word", "1"]
    ["1:1", "aaaa", "word", "2", "x", "y"] ⟨0, 1, 2, 3, -1, -1⟩ ⟨0, 1, 2, 3, 4, 5⟩
    (by decide) (by decide) (by decide) (by decide) (by decide) (by decide)
    (by decide) (by decide) (by decide) (by decide) (by decide) (by decide)
    (by decide) (by decide) (by decide) (by decide) (by decide) (by decide)
    (by decide) (by decide) (by decide) (by decide)
  exact ⟨h1.1.mpr ⟨by decide, by decide, by decide, by decide⟩,
    h1.2.1.mpr ⟨by decide, by decide, by decide, by decide⟩,
    (h2.2.2 (by decide)).1⟩

theorem idxOf?_eq_none_iff {a : String} :
    ∀ {l : List String}, idxOf? a l = none ↔ a ∉ l := by
  intro l
  induction l with
  | nil => simp [idxOf?]
  | cons b t ih =>
    simp only [idxOf?, List.mem_cons]
    by_cases hb : (b == a) = true
    · simp [hb, beq_iff_eq.mp hb]
    · rw [if_neg hb]
      have hab : a ≠ b := fun h => hb (beq_iff_eq.mpr h.symm)
      simp only [Option.map_eq_none', ih]
      tauto

theorem idxOf?_lt_length {a : String} {l : List String} {i : Nat}
    (h : idxOf? a l = some i) : i < l.length := by
  by_contra hc
  have h2 := idxOf?_getElem h
  rw [List.getElem?_eq_none (by omega)] at h2
  exact absurd h2 (by simp)

theorem idxOf?_append {a : String} :
    ∀ {l1 l2 : List String}, idxOf? a (l1 ++ l2)
      = match idxOf? a l1 with
        | some i => some i
        | none => (idxOf? a l2).map (· + l1.length) := by
  intro l1
  induction l1 with
  | nil =>
    intro l2
    rcases h2 : idxOf? a l2 with _ | j <;> simp [idxOf?, h2]
  | cons b t ih =>
    intro l2
    simp only [List.cons_append, idxOf?]
    by_cases hb : (b == a) = true
    · simp [hb]
    · rcases ht : idxOf? a t with _ | j
      · rcases h2 : idxOf? a l2 with _ | j2 <;>
          simp [hb, ih, ht, h2, List.length_cons] <;> omega
      · simp [hb, ih, ht]

theorem idxOf?_take_lt {a : String} :
    ∀ {l : List String} {i k : Nat}, idxOf? a l = some i → i < k →
      idxOf? a (l.take k) = some i := by
  intro l
  induction l with
  | nil => intro i k h _; simp [idxOf?] at h
  | cons b t ih =>
    intro i k h hik
    rcases k with _ | k2
    · omega
    · simp only [List.take_succ_cons, idxOf?]
      simp only [idxOf?] at h
      by_cases hb : (b == a) = true
      · rw [if_pos hb] at h ⊢
        exact h
      · rw [if_neg hb] at h ⊢
        rcases Option.map_eq_some'.mp h with ⟨j, hj, rfl⟩
        rw [ih hj (by omega)]
        rfl

theorem idxOf?_take_ge {a : String} :
    ∀ {l : List String} {i k : Nat}, idxOf? a l = some i → k ≤ i →
      idxOf? a (l.take k) = none := by
  intro l
  induction l with
  | nil => intro i k h _; simp [idxOf?] at h
  | cons b t ih =>
    intro i k h hik
    rcases k with _ | k2
    · simp [idxOf?]
    · simp only [List.take_succ_cons, idxOf?]
      simp only [idxOf?] at h
      by_cases hb : (b == a) = true
      · rw [if_pos hb] at h
        obtain rfl : (0 : Nat) = i := by injection h
        omega
      · rw [if_neg hb] at h ⊢
        rcases Option.map_eq_some'.mp h with ⟨j, hj, rfl⟩
        rw [ih hj (by omega)]
        rfl

theorem idxOf?_drop_ge {a : String} :
    ∀ {k : Nat} {l : List String} {i : Nat}, idxOf? a l = some i → k ≤ i →
      idxOf? a (l.drop k) = some (i - k) := by
  intro k
  induction k with
  | zero => intro l i h _; simpa using h
  | succ k2 ih =>
    intro l i h hik
    rcases l with _ | ⟨b, t⟩
    · simp [idxOf?] at h
    · simp only [List.drop_succ_cons]
      simp only [idxOf?] at h
      by_cases hb : (b == a) = true
      · rw [if_pos hb] at h
        obtain rfl : (0 : Nat) = i := by injection h
        omega
      · rw [if_neg hb] at h
        rcases Option.map_eq_some'.mp h with ⟨j, hj, rfl⟩
        rw [ih hj (by omega)]
        congr 1
        omega

theorem idxOf?_take_none {a : String} {l : List String} {k : Nat}
    (h : idxOf? a l = none) : idxOf? a (l.take k) = none := by
  rw [idxOf?_eq_none_iff] at h ⊢
  exact fun hm => h (List.take_subset k l hm)

theorem idxOf?_drop_none {a : String} {l : List String} {k : Nat}
    (h : idxOf? a l = none) : idxOf? a (l.drop k) = none := by
  rw [idxOf?_eq_none_iff] at h ⊢
  exact fun hm => h (List.drop_subset k l hm)

/-- Inserting foreign names at position `k` leaves an earlier first
occurrence in place. -/
theorem idxOf?_spliceIns_lt {a : String} {l : List String} {k i : Nat}
    {xs : List String} (h : idxOf? a l = some i) (hik : i < k) :
    idxOf? a (spliceIns l k xs) = some i := by
  simp only [spliceIns, ← List.append_assoc]
  rw [idxOf?_append]
  rw [idxOf?_append, idxOf?_take_lt h hik]

/-- Inserting `xs` (not containing `a`) at position `k` shifts a first
occurrence at or past `k` by `xs.length`. -/
theorem idxOf?_spliceIns_ge {a : String} {l : List String} {k i : Nat}
    {xs : List String} (h : idxOf? a l = some i) (hik : k ≤ i)
    (hxs : a ∉ xs) : idxOf? a (spliceIns l k xs) = some (i + xs.length) := by
  have hkl : k ≤ l.length := le_of_lt (lt_of_le_of_lt hik (idxOf?_lt_length h))
  have htake : (l.take k).length = k := by
    simp [List.length_take]
    omega
  simp only [spliceIns, ← List.append_assoc]
  rw [idxOf?_append]
  rw [idxOf?_append, idxOf?_take_ge h hik, idxOf?_eq_none_iff.mpr hxs]
  simp only [Option.map_none', idxOf?_drop_ge h hik, Option.map_some']
  rw [List.length_append, htake]
  congr 1
  omega

/-- A name absent from both the list and the insertion stays absent. -/
theorem idxOf?_spliceIns_none {a : String} {l : List String} {k : Nat}
    {xs : List String} (h : idxOf? a l = none) (hxs : a ∉ xs) :
    idxOf? a (spliceIns l k xs) = none := by
  simp only [spliceIns, ← List.append_assoc]
  rw [idxOf?_append]
  rw [idxOf?_append, idxOf?_take_none h, idxOf?_eq_none_iff.mpr hxs]
  simp [idxOf?_drop_none h]

/-- A name absent from the list but heading the insertion lands at the
insertion point. -/
theorem idxOf?_spliceIns_head {a : String} {l : List String} {k : Nat}
    {xs : List String} (h : idxOf? a l = none) (hxs : idxOf? a xs = some 0)
    (hkl : k ≤ l.length) : idxOf? a (spliceIns l k xs) = some k := by
  have htake : (l.take k).length = k := by
    simp [List.length_take]
    omega
  simp only [spliceIns, ← List.append_assoc]
  rw [idxOf?_append]
  rw [idxOf?_append, idxOf?_take_none h, hxs]
  simp [htake]

/-- Two reads that agree, or where padding turned an out-of-range read
into an empty field: every atom of the selection predicate treats the two
alike. -/
def readsLike (x y : Option String) : Prop :=
  x = y ∨ (x = some "" ∧ y = none)

theorem readsLike_truthyTrim {x y : Option String} (h : readsLike x y) :
    truthyTrim x = truthyTrim y := by
  rcases h with rfl | ⟨rfl, rfl⟩
  · rfl
  · decide

theorem readsLike_zero {x y : Option String} (h : readsLike x y) :
    (x == some "0") = (y == some "0") := by
  rcases h with rfl | ⟨rfl, rfl⟩
  · rfl
  · decide

theorem readsLike_includes {x y : Option String} (h : readsLike x y) :
    optIncludes x QNF = optIncludes y QNF := by
  rcases h with rfl | ⟨rfl, rfl⟩
  · rfl
  · decide

theorem jsAt_ofNat (r : List String) (m : Nat) : jsAt r (m : Int) = r[m]? := by
  simp [jsAt]

theorem jsAt_negOne (r : List String) : jsAt r (-1) = none := by
  simp [jsAt]

theorem padTo_getElem_ge (l : List String) (n i : Nat) (h1 : l.length ≤ i)
    (h2 : i < n) : (padTo l n)[i]? = some "" := by
  simp only [padTo]
  rw [List.getElem?_append_right h1, List.getElem?_replicate]
  rw [if_pos (by omega)]

/-- Reads past the original row inside the padded splice-of-blanks are
empty fields. -/
theorem splice_pad_read_hi (r : List String) (k n i : Nat) (hkr : r.length ≤ k)
    (hri : r.length ≤ i) (hin : i < n ∨ i < r.length + 2) :
    (padTo (spliceIns r k ["", ""]) n)[i]? = some "" := by
  have htake : r.take k = r := List.take_of_length_le hkr
  have hdrop : r.drop k = [] := List.drop_eq_nil_of_le hkr
  by_cases h2 : i < r.length + 2
  · rw [padTo_getElem_lt _ _ _
      (by simp only [spliceIns_length, List.length_cons, List.length_nil]; omega)]
    simp only [spliceIns, htake, hdrop, List.append_nil]
    rw [List.getElem?_append_right (by omega)]
    have h3 : i - r.length = 0 ∨ i - r.length = 1 := by omega
    rcases h3 with h3 | h3 <;> rw [h3] <;> rfl
  · apply padTo_getElem_ge
    · simp only [spliceIns_length, List.length_cons, List.length_nil]
      omega
    · omega

/-- Reads strictly before the insertion point look like the original row. -/
theorem splice_read_lt (r : List String) (k n i : Nat) (hik : i < k)
    (hin : i < n) :
    readsLike ((padTo (spliceIns r k ["", ""]) n)[i]?) (r[i]?) := by
  by_cases hr : i < r.length
  · left
    have htl : i < (r.take k).length := by
      simp only [List.length_take]
      omega
    rw [padTo_getElem_lt _ _ _
      (by simp only [spliceIns_length, List.length_cons, List.length_nil]; omega)]
    simp only [spliceIns]
    rw [List.getElem?_append_left
        (by simp only [List.length_append, List.length_take, List.length_cons,
          List.length_nil]; omega),
      List.getElem?_append_left htl, List.getElem?_take, if_pos hik]
  · right
    refine ⟨?_, List.getElem?_eq_none (by omega)⟩
    exact splice_pad_read_hi r k n i (by omega) (by omega) (Or.inl hin)

/-- Reads shifted by the two inserted columns look like the original row. -/
theorem splice_read_shift (r : List String) (k n i : Nat) (hki : k ≤ i)
    (hin : i + 2 < n) :
    readsLike ((padTo (spliceIns r k ["", ""]) n)[i + 2]?) (r[i]?) := by
  by_cases hr : i < r.length
  · left
    have htake : (r.take k).length = k := by
      simp only [List.length_take]
      omega
    rw [padTo_getElem_lt _ _ _
      (by simp only [spliceIns_length, List.length_cons, List.length_nil]; omega)]
    simp only [spliceIns]
    rw [List.getElem?_append_right
      (by simp only [List.length_append, htake, List.length_cons, List.length_nil]
          omega)]
    rw [List.getElem?_drop]
    congr 1
    simp only [List.length_append, htake, List.length_cons, List.length_nil]
    omega
  · right
    refine ⟨?_, List.getElem?_eq_none (by omega)⟩
    by_cases hkr : r.length ≤ k
    · exact splice_pad_read_hi r k n (i + 2) hkr (by omega) (Or.inl (by omega))
    · apply padTo_getElem_ge
      · simp only [spliceIns_length, List.length_cons, List.length_nil]
        omega
      · omega

/-- The first inserted (GLQuote) position of the padded splice always
reads an empty field. -/
theorem splice_read_at_k (r : List String) (k n : Nat) (hkn : k < n) :
    (padTo (spliceIns r k ["", ""]) n)[k]? = some "" := by
  by_cases hk : k ≤ r.length
  · have htake : (r.take k).length = k := by
      simp only [List.length_take]
      omega
    rw [padTo_getElem_lt _ _ _
      (by simp only [spliceIns_length, List.length_cons, List.length_nil]; omega)]
    simp only [spliceIns]
    rw [List.getElem?_append_left
        (by simp only [List.length_append, htake, List.length_cons, List.length_nil]
            omega),
      List.getElem?_append_right (by omega)]
    simp [htake]
  · exact splice_pad_read_hi r k n k (by omega) (by omega) (Or.inl hkn)

theorem ofNat_beq_negOne (n : Nat) : ((n : Int) == -1) = false := by
  rw [beq_eq_false_iff_ne]
  omega

/-- The quote fallback chain, phrased over `idxOf?`. -/
theorem quoteChainIdx_eq (h : List String) :
    quoteChainIdx h =
      match idxOf? "Quote" h with
      | some n => (n : Int)
      | none =>
        match idxOf? "OrigQuote" h with
        | some n => (n : Int)
        | none =>
          match idxOf? "OrigWords" h with
          | some n => (n : Int)
          | none => -1 := by
  rcases h1 : idxOf? "Quote" h with _ | n1 <;>
    rcases h2 : idxOf? "OrigQuote" h with _ | n2 <;>
      rcases h3 : idxOf? "OrigWords" h with _ | n3 <;>
        simp [quoteChainIdx, jsIndexOf, h1, h2, h3, ofNat_beq_negOne]

/-- A resolved quote index points at one of the three accepted column
names and is in range. -/
theorem quoteChainIdx_spec (h : List String) :
    quoteChainIdx h = -1 ∨ ∃ n : Nat, quoteChainIdx h = (n : Int) ∧ n < h.length ∧
      (h[n]? = some "Quote" ∨ h[n]? = some "OrigQuote" ∨ h[n]? = some "OrigWords") := by
  rw [quoteChainIdx_eq]
  rcases h1 : idxOf? "Quote" h with _ | n1
  · rcases h2 : idxOf? "OrigQuote" h with _ | n2
    · rcases h3 : idxOf? "OrigWords" h with _ | n3
      · exact Or.inl rfl
      · exact Or.inr ⟨n3, rfl, idxOf?_lt_length h3, Or.inr (Or.inr (idxOf?_getElem h3))⟩
    · exact Or.inr ⟨n2, rfl, idxOf?_lt_length h2, Or.inr (Or.inl (idxOf?_getElem h2))⟩
  · exact Or.inr ⟨n1, rfl, idxOf?_lt_length h1, Or.inl (idxOf?_getElem h1)⟩

/-- Behaviour of the quote fallback chain under insertion of the two GL
columns at position `k`. -/
theorem quoteChainIdx_splice (hh : List String) (k : Nat) :
    (quoteChainIdx hh = -1 →
      quoteChainIdx (spliceIns hh k ["GLQuote", "GLOccurrence"]) = -1) ∧
    (∀ q : Nat, quoteChainIdx hh = (q : Int) → q < k →
      quoteChainIdx (spliceIns hh k ["GLQuote", "GLOccurrence"]) = (q : Int)) ∧
    (∀ q : Nat, quoteChainIdx hh = (q : Int) → k ≤ q →
      quoteChainIdx (spliceIns hh k ["GLQuote", "GLOccurrence"])
        = ((q + 2 : Nat) : Int)) := by
  have m1 : "Quote" ∉ (["GLQuote", "GLOccurrence"] : List String) := by decide
  have m2 : "OrigQuote" ∉ (["GLQuote", "GLOccurrence"] : List String) := by decide
  have m3 : "OrigWords" ∉ (["GLQuote", "GLOccurrence"] : List String) := by decide
  rcases h1 : idxOf? "Quote" hh with _ | n1
  · rcases h2 : idxOf? "OrigQuote" hh with _ | n2
    · rcases h3 : idxOf? "OrigWords" hh with _ | n3
      · refine ⟨fun _ => ?_, fun q hq _ => ?_, fun q hq _ => ?_⟩
        · simp [quoteChainIdx_eq, idxOf?_spliceIns_none h1 m1,
            idxOf?_spliceIns_none h2 m2, idxOf?_spliceIns_none h3 m3]
        all_goals
          simp only [quoteChainIdx_eq, h1, h2, h3] at hq
          exfalso
          push_cast at hq
          try omega
      · refine ⟨fun hq => ?_, fun q hq hqk => ?_, fun q hq hqk => ?_⟩
        · simp only [quoteChainIdx_eq, h1, h2, h3] at hq
          exfalso
          push_cast at hq
          try omega
        · simp only [quoteChainIdx_eq, h1, h2, h3] at hq
          obtain rfl : n3 = q := by omega
          simp [quoteChainIdx_eq, idxOf?_spliceIns_none h1 m1,
            idxOf?_spliceIns_none h2 m2, idxOf?_spliceIns_lt h3 hqk]
        · simp only [quoteChainIdx_eq, h1, h2, h3] at hq
          obtain rfl : n3 = q := by omega
          simp [quoteChainIdx_eq, idxOf?_spliceIns_none h1 m1,
            idxOf?_spliceIns_none h2 m2, idxOf?_spliceIns_ge h3 hqk m3]
    · refine ⟨fun hq => ?_, fun q hq hqk => ?_, fun q hq hqk => ?_⟩
      · simp only [quoteChainIdx_eq, h1, h2] at hq
        exfalso
        push_cast at hq
        try omega
      · simp only [quoteChainIdx_eq, h1, h2] at hq
        obtain rfl : n2 = q := by omega
        simp [quoteChainIdx_eq, idxOf?_spliceIns_none h1 m1,
          idxOf?_spliceIns_lt h2 hqk]
      · simp only [quoteChainIdx_eq, h1, h2] at hq
        obtain rfl : n2 = q := by omega
        simp [quoteChainIdx_eq, idxOf?_spliceIns_none h1 m1,
          idxOf?_spliceIns_ge h2 hqk m2]
  · refine ⟨fun hq => ?_, fun q hq hqk => ?_, fun q hq hqk => ?_⟩
    · simp only [quoteChainIdx_eq, h1] at hq
      exfalso
      push_cast at hq
      try omega
    · simp only [quoteChainIdx_eq, h1] at hq
      obtain rfl : n1 = q := by omega
      simp [quoteChainIdx_eq, idxOf?_spliceIns_lt h1 hqk]
    · simp only [quoteChainIdx_eq, h1] at hq
      obtain rfl : n1 = q := by omega
      simp [quoteChainIdx_eq, idxOf?_spliceIns_ge h1 hqk m1]

theorem truthyTrim_some_empty : truthyTrim (some "") = false := by decide

/-- Blank rows, once padded to the new width, never satisfy the selection
predicate re-evaluated at the post-insertion indices. -/
theorem merged_row_pred_blank (hh : List String) (occNat : Nat) (r : List String)
    (hocc : idxOf? "Occurrence" hh = some occNat)
    (hb : r.length ≤ 1) :
    siteANeeds
      (padTo r (spliceIns hh (occNat + 1) ["GLQuote", "GLOccurrence"]).length)
      (quoteChainIdx (spliceIns hh (occNat + 1) ["GLQuote", "GLOccurrence"]))
      (jsIndexOf (spliceIns hh (occNat + 1) ["GLQuote", "GLOccurrence"]) "Occurrence")
      (jsIndexOf (spliceIns hh (occNat + 1) ["GLQuote", "GLOccurrence"]) "GLQuote")
      = false := by
  have hoccLt := idxOf?_lt_length hocc
  have hLen : (spliceIns hh (occNat + 1) ["GLQuote", "GLOccurrence"]).length
      = hh.length + 2 := by
    simp only [spliceIns_length, List.length_cons, List.length_nil]
  have hOccNh : idxOf? "Occurrence"
      (spliceIns hh (occNat + 1) ["GLQuote", "GLOccurrence"]) = some occNat :=
    idxOf?_spliceIns_lt hocc (by omega)
  have hjsOcc : jsIndexOf (spliceIns hh (occNat + 1) ["GLQuote", "GLOccurrence"])
      "Occurrence" = (occNat : Int) := by
    simp [jsIndexOf, hOccNh]
  rcases quoteChainIdx_spec (spliceIns hh (occNat + 1) ["GLQuote", "GLOccurrence"])
    with hqc | ⟨qn, hqc, hqlt, hqname⟩
  · rw [hqc, hjsOcc]
    simp [siteANeeds, jsAt_negOne, truthyTrim]
  · rw [hqc, hjsOcc]
    have hOccRead : (spliceIns hh (occNat + 1) ["GLQuote", "GLOccurrence"])[occNat]?
        = some "Occurrence" := idxOf?_getElem hOccNh
    have hne : qn ≠ occNat := by
      intro he
      rw [he, hOccRead] at hqname
      rcases hqname with h | h | h <;> exact absurd h (by decide)
    by_cases h0 : qn = 0
    · have hread : (padTo r
          (spliceIns hh (occNat + 1) ["GLQuote", "GLOccurrence"]).length)[occNat]?
          = some "" :=
        padTo_getElem_ge _ _ _ (by omega) (by omega)
      simp [siteANeeds, jsAt_ofNat, hread, truthyTrim_some_empty]
    · have hread : (padTo r
          (spliceIns hh (occNat + 1) ["GLQuote", "GLOccurrence"]).length)[qn]?
          = some "" :=
        padTo_getElem_ge _ _ _ (by omega) (by omega)
      simp [siteANeeds, jsAt_ofNat, hread, truthyTrim_some_empty]

/-- A data row spliced with empty GL values and padded satisfies the
selection predicate at the post-insertion indices exactly when its
original quote and occurrence fields make it eligible. -/
theorem merged_row_pred_data (hh : List String) (occNat : Nat) (r : List String)
    (hocc : idxOf? "Occurrence" hh = some occNat)
    (hGQ : "GLQuote" ∉ hh) :
    siteANeeds
      (padTo (spliceIns r (occNat + 1) ["", ""])
        (spliceIns hh (occNat + 1) ["GLQuote", "GLOccurrence"]).length)
      (quoteChainIdx (spliceIns hh (occNat + 1) ["GLQuote", "GLOccurrence"]))
      (jsIndexOf (spliceIns hh (occNat + 1) ["GLQuote", "GLOccurrence"]) "Occurrence")
      (jsIndexOf (spliceIns hh (occNat + 1) ["GLQuote", "GLOccurrence"]) "GLQuote")
      = (truthyTrim (jsAt r (quoteChainIdx hh)) &&
         truthyTrim (jsAt r (occNat : Int)) &&
         !(jsAt r (occNat : Int) == some "0")) := by
  have hoccLt := idxOf?_lt_length hocc
  have hLen : (spliceIns hh (occNat + 1) ["GLQuote", "GLOccurrence"]).length
      = hh.length + 2 := by
    simp only [spliceIns_length, List.length_cons, List.length_nil]
  have hOccNh : idxOf? "Occurrence"
      (spliceIns hh (occNat + 1) ["GLQuote", "GLOccurrence"]) = some occNat :=
    idxOf?_spliceIns_lt hocc (by omega)
  have hjsOcc : jsIndexOf (spliceIns hh (occNat + 1) ["GLQuote", "GLOccurrence"])
      "Occurrence" = (occNat : Int) := by
    simp [jsIndexOf, hOccNh]
  have hGlqNh : idxOf? "GLQuote"
      (spliceIns hh (occNat + 1) ["GLQuote", "GLOccurrence"])
      = some (occNat + 1) := by
    have h0 : idxOf? "GLQuote" (["GLQuote", "GLOccurrence"] : List String)
        = some 0 := by decide
    simpa using idxOf?_spliceIns_head (idxOf?_eq_none_iff.mpr hGQ) h0 (by omega)
  have hjsGlq : jsIndexOf (spliceIns hh (occNat + 1) ["GLQuote", "GLOccurrence"])
      "GLQuote" = ((occNat + 1 : Nat) : Int) := by
    simp [jsIndexOf, hGlqNh]
  have hglqRead : (padTo (spliceIns r (occNat + 1) ["", ""])
      (spliceIns hh (occNat + 1) ["GLQuote", "GLOccurrence"]).length)[occNat + 1]?
      = some "" :=
    splice_read_at_k r (occNat + 1) _ (by omega)
  have hoccRL : readsLike
      ((padTo (spliceIns r (occNat + 1) ["", ""])
        (spliceIns hh (occNat + 1) ["GLQuote", "GLOccurrence"]).length)[occNat]?)
      (r[occNat]?) :=
    splice_read_lt r (occNat + 1) _ occNat (by omega) (by omega)
  rw [hjsOcc, hjsGlq]
  rcases quoteChainIdx_spec hh with hq | ⟨q, hq, hqlt, _⟩
  · rw [hq, (quoteChainIdx_splice hh (occNat + 1)).1 hq]
    simp [siteANeeds, jsAt_negOne, truthyTrim]
  · rw [hq]
    by_cases hqk : q < occNat + 1
    · rw [(quoteChainIdx_splice hh (occNat + 1)).2.1 q hq hqk]
      have hqRL : readsLike
          ((padTo (spliceIns r (occNat + 1) ["", ""])
            (spliceIns hh (occNat + 1) ["GLQuote", "GLOccurrence"]).length)[q]?)
          (r[q]?) :=
        splice_read_lt r (occNat + 1) _ q (by omega) (by omega)
      simp only [siteANeeds, jsAt_ofNat, hglqRead, truthyTrim_some_empty,
        Bool.not_false, Bool.true_or, Bool.or_true, Bool.and_true,
        readsLike_truthyTrim hqRL, readsLike_truthyTrim hoccRL,
        readsLike_zero hoccRL]
    · rw [(quoteChainIdx_splice hh (occNat + 1)).2.2 q hq (by omega)]
      have hqRL : readsLike
          ((padTo (spliceIns r (occNat + 1) ["", ""])
            (spliceIns hh (occNat + 1) ["GLQuote", "GLOccurrence"]).length)[q + 2]?)
          (r[q]?) :=
        splice_read_shift r (occNat + 1) _ q (by omega) (by omega)
      simp only [siteANeeds, jsAt_ofNat, hglqRead, truthyTrim_some_empty,
        Bool.not_false, Bool.true_or, Bool.or_true, Bool.and_true,
        readsLike_truthyTrim hqRL, readsLike_truthyTrim hoccRL,
        readsLike_zero hoccRL]

/-- C9: on a current row set without the derived columns and a previous
row set carrying them, with no current data row agreeing with any
previous data row on all four identity components, the full merge reports
`matchedCount = 0` and `missingCount` equal to the number of eligible
current data rows (non-blank, with a non-blank quote field and a
non-blank occurrence field other than "0"). -/
theorem disjoint_merge_counts (tsv prev : String) (occNat : Nat)
    (hocc : idxOf? "Occurrence" ((parseTSV tsv).headD []) = some occNat)
    (hGQ : "GLQuote" ∉ ((parseTSV tsv).headD []))
    (hGO : "GLOccurrence" ∉ ((parseTSV tsv).headD []))
    (hpq : "GLQuote" ∈ ((parseTSV prev).headD []))
    (hpo : "GLOccurrence" ∈ ((parseTSV prev).headD []))
    (hdisj : ∀ r ∈ (parseTSV tsv).drop 1, 1 < r.length →
      ∀ p ∈ (parseTSV prev).drop 1, 1 < p.length →
      rowMatches r p (mergeCurrentIdx ((parseTSV tsv).headD []))
        (mergePreviousIdx ((parseTSV prev).headD [])) = false) :
    (mergePreviousGLQuotes tsv (some prev)).matchedCountOf = some 0 ∧
    (mergePreviousGLQuotes tsv (some prev)).missingCountOf =
      some (((parseTSV tsv).drop 1).countP
        (fun r => eligibleRow r (quoteChainIdx ((parseTSV tsv).headD []))
          (jsIndexOf ((parseTSV tsv).headD []) "Occurrence"))) := by
  have hoccLt := idxOf?_lt_length hocc
  have hc1 : ((parseTSV tsv).headD []).contains "GLQuote" = false := by
    simpa using hGQ
  obtain ⟨gq, hgq⟩ : ∃ n, idxOf? "GLQuote" ((parseTSV prev).headD []) = some n := by
    rcases hx : idxOf? "GLQuote" ((parseTSV prev).headD []) with _ | n
    · exact absurd hpq (idxOf?_eq_none_iff.mp hx)
    · exact ⟨n, rfl⟩
  obtain ⟨go, hgo⟩ : ∃ n, idxOf? "GLOccurrence" ((parseTSV prev).headD [])
      = some n := by
    rcases hx : idxOf? "GLOccurrence" ((parseTSV prev).headD []) with _ | n
    · exact absurd hpo (idxOf?_eq_none_iff.mp hx)
    · exact ⟨n, rfl⟩
  have hpIdxq : (mergePreviousIdx ((parseTSV prev).headD [])).glq = (gq : Int) := by
    simp only [mergePreviousIdx, jsIndexOf, hgq]
  have hpIdxo : (mergePreviousIdx ((parseTSV prev).headD [])).glo = (go : Int) := by
    simp only [mergePreviousIdx, jsIndexOf, hgo]
  have hcIdxo : (mergeCurrentIdx ((parseTSV tsv).headD [])).occ = (occNat : Int) := by
    simp only [mergeCurrentIdx, jsIndexOf, hocc]
  have hcond2 : ((mergePreviousIdx ((parseTSV prev).headD [])).glq == -1 ||
      (mergePreviousIdx ((parseTSV prev).headD [])).glo == -1) = false := by
    rw [hpIdxq, hpIdxo, ofNat_beq_negOne, ofNat_beq_negOne]
    rfl
  have hcond3 : ((mergeCurrentIdx ((parseTSV tsv).headD [])).occ == -1) = false := by
    rw [hcIdxo, ofNat_beq_negOne]
  have htoNat : (mergeCurrentIdx ((parseTSV tsv).headD [])).occ.toNat = occNat := by
    rw [hcIdxo]
    simp
  have hLen : (spliceIns ((parseTSV tsv).headD []) (occNat + 1)
      ["GLQuote", "GLOccurrence"]).length = ((parseTSV tsv).headD []).length + 2 := by
    simp only [spliceIns_length, List.length_cons, List.length_nil]
  have hfindnone : ∀ r ∈ (parseTSV tsv).drop 1, ¬(r.length ≤ 1) →
      ((parseTSV prev).drop 1).find?
        (fun p => decide (1 < p.length) &&
          rowMatches r p (mergeCurrentIdx ((parseTSV tsv).headD []))
            (mergePreviousIdx ((parseTSV prev).headD []))) = none := by
    intro r hr hr1
    rw [List.find?_eq_none]
    intro p hp
    by_cases hpl : 1 < p.length
    · simp only [hdisj r hr (by omega) p hp hpl, Bool.and_false]
      exact Bool.false_ne_true
    · have hd : decide (1 < p.length) = false := by
        simp [hpl]
      simp only [hd, Bool.false_and]
      exact Bool.false_ne_true
  have hstep : ∀ r ∈ (parseTSV tsv).drop 1,
      mergeRowStep (parseTSV prev) (mergeCurrentIdx ((parseTSV tsv).headD []))
        (mergePreviousIdx ((parseTSV prev).headD []))
        (spliceIns ((parseTSV tsv).headD []) (occNat + 1)
          ["GLQuote", "GLOccurrence"]).length occNat
        (mergePreviousIdx ((parseTSV prev).headD [])).glq
        (mergePreviousIdx ((parseTSV prev).headD [])).glo r
      = (if r.length ≤ 1 then
          padTo r (spliceIns ((parseTSV tsv).headD []) (occNat + 1)
            ["GLQuote", "GLOccurrence"]).length
        else
          padTo (spliceIns r (occNat + 1) ["", ""])
            (spliceIns ((parseTSV tsv).headD []) (occNat + 1)
              ["GLQuote", "GLOccurrence"]).length, 0) := by
    intro r hr
    by_cases hb : r.length ≤ 1
    · rw [if_pos hb]
      simp only [mergeRowStep, if_pos hb]
    · rw [if_neg hb]
      simp only [mergeRowStep, if_neg hb, hfindnone r hr hb]
  simp only [mergePreviousGLQuotes, hc1, Bool.false_and, Bool.false_eq_true,
    if_false, hcond2, hcond3, htoNat, MergedResult.matchedCountOf,
    MergedResult.missingCountOf, Option.some.injEq]
  constructor
  · apply List.sum_eq_zero
    intro x hx
    rcases List.mem_map.mp hx with ⟨pr, hpr, rfl⟩
    rcases List.mem_map.mp hpr with ⟨r, hr, rfl⟩
    rw [hstep r hr]
  · have hGlqNh : idxOf? "GLQuote" (spliceIns ((parseTSV tsv).headD []) (occNat + 1)
        ["GLQuote", "GLOccurrence"]) = some (occNat + 1) := by
      have h0 : idxOf? "GLQuote" (["GLQuote", "GLOccurrence"] : List String)
          = some 0 := by decide
      simpa using idxOf?_spliceIns_head (idxOf?_eq_none_iff.mpr hGQ) h0 (by omega)
    have hjsGlq : jsIndexOf (spliceIns ((parseTSV tsv).headD []) (occNat + 1)
        ["GLQuote", "GLOccurrence"]) "GLQuote" = ((occNat + 1 : Nat) : Int) := by
      simp only [jsIndexOf, hGlqNh]
    simp only [missingByHeaders, List.headD_cons, List.drop_succ_cons,
      List.drop_zero, hjsGlq]
    rw [if_pos (by positivity)]
    rw [List.map_map, List.countP_map]
    apply List.countP_congr
    intro r hr
    simp only [Function.comp_apply, hstep r hr]
    by_cases hb : r.length ≤ 1
    · rw [if_pos hb]
      have hblank := merged_row_pred_blank ((parseTSV tsv).headD []) occNat r hocc hb
      rw [hjsGlq] at hblank
      simp only [hblank, Bool.and_false]
      have hb2 : ¬(1 < r.length) := by omega
      simp [eligibleRow, hb2]
    · rw [if_neg hb]
      have hdata := merged_row_pred_data ((parseTSV tsv).headD []) occNat r hocc hGQ
      rw [hjsGlq] at hdata
      have hlen2 : 1 < (padTo (spliceIns r (occNat + 1) ["", ""])
          (spliceIns ((parseTSV tsv).headD []) (occNat + 1)
            ["GLQuote", "GLOccurrence"]).length).length := by
        rw [padTo_length]
        omega
      have hjsOccCh : jsIndexOf ((parseTSV tsv).headD []) "Occurrence"
          = (occNat : Int) := by
        simp only [jsIndexOf, hocc]
      simp only [hdata, decide_eq_true hlen2, Bool.true_and, eligibleRow, hjsOccCh,
        decide_eq_true (show (1 < r.length) by omega)]

/-- Witness for the disjoint-merge count theorem at a concrete pair of
files with disjoint identity keys: zero matches and one eligible row. -/
theorem disjoint_merge_counts_witness :
    (mergePreviousGLQuotes "Reference\tID\tQuote\tOccurrence\nr1\tid1\tword\t1"
      (some "Reference\tID\tQuote\tOccurrence\tGLQuote\tGLOccurrence\npr\tid9\tother\t2\tgl\t1")).matchedCountOf
      = some 0 ∧
    (mergePreviousGLQuotes "Reference\tID\tQuote\tOccurrence\nr1\tid1\tword\t1"
      (some "Reference\tID\tQuote\tOccurrence\tGLQuote\tGLOccurrence\npr\tid9\tother\t2\tgl\t1")).missingCountOf
      = some 1 := by
  have h := disjoint_merge_counts
    "Reference\tID\tQuote\tOccurrence\nr1\tid1\tword\t1"
    "Reference\tID\tQuote\tOccurrence\tGLQuote\tGLOccurrence\npr\tid9\tother\t2\tgl\t1"
    3 (by decide) (by decide) (by decide) (by decide) (by decide) (by decide)
  exact ⟨h.1, h.2.trans (by decide)⟩
